import Mathlib

/-!
# Verification of `apache_mod_status_exporter.py`

A shallow embedding of the core of the exporter
(`src/apache_mod_status_exporter.py`): URL normalisation
(`ensure_auto_parameter`), status-text parsing (the loop inside
`fetch_apache_status`), metric projection (`update_metrics`), and the
per-target collection cycle (`collect_metrics` / `fetch_and_update`).

Modelling conventions:
* Python strings are Lean `String`s; character-level work is done on
  `String.data : List Char`.
* Python `dict` is an insertion-ordered association list
  (`List (String × String)`) with `dictInsert` (assignment: replace the
  value of an existing key in place, else append) and `dictGet`.
* Numeric gauge values are `ℚ` (every value the program computes is an
  exact decimal or a quotient of integers, so `ℚ` embeds Python's
  float/int arithmetic on the reachable values).
* Exceptions are explicit: a computation that can raise returns an
  `Except`/`Option`, and `update_metrics`, which mutates gauges *before*
  it can raise, returns the mutated state together with the optional
  error.
* Network I/O is an oracle `net : String → Option String → Except String
  String` mapping (url, proxy passed to the request) to the response body
  or a transport error.
* Side effects that no claim observes (the verbose `print`, the
  `os.environ` proxy export) are elided; diagnostics printed by
  `fetch_and_update` are modelled as returned `(label, message)` values.
-/

namespace ApacheExporter

/-! ## Python `str.split` (split on every occurrence of a separator)

`splitSep1 a` models Python `s.split(a)` for a one-character separator,
`splitSep2 a b` models `s.split(ab)` for a two-character separator
(the source uses `'\n'` and `': '`).  Both scan left to right, splitting
at every non-overlapping occurrence, like Python's `str.split`. -/

def splitSep1 (a : Char) : List Char → List Char → List (List Char)
  | [], acc => [acc.reverse]
  | c :: rest, acc =>
    if c = a then acc.reverse :: splitSep1 a rest []
    else splitSep1 a rest (c :: acc)

def splitSep2 (a b : Char) : List Char → List Char → List (List Char)
  | [], acc => [acc.reverse]
  | [c], acc => [(c :: acc).reverse]
  | c :: d :: rest, acc =>
    if c = a ∧ d = b then acc.reverse :: splitSep2 a b rest []
    else splitSep2 a b (d :: rest) (c :: acc)

/-- Number of (non-overlapping, left-to-right) occurrences of the
two-character separator `ab` in a character list; the count of `": "`
separators in a status line. -/
def countSep2 (a b : Char) : List Char → Nat
  | [] => 0
  | [_] => 0
  | c :: d :: rest =>
    if c = a ∧ d = b then countSep2 a b rest + 1
    else countSep2 a b (d :: rest)

/-! ## Python `str.strip` -/

/-- Python `str.strip()`: remove leading and trailing whitespace. -/
def stripChars (l : List Char) : List Char :=
  (((l.dropWhile Char.isWhitespace).reverse.dropWhile Char.isWhitespace).reverse)

def pyStrip (s : String) : String := String.mk (stripChars s.data)

/-! ## Python `dict` as an insertion-ordered association list -/

/-- Python `d[k] = v`: replace the value of an existing key in place,
otherwise append the new binding at the end. -/
def dictInsert : List (String × String) → String → String → List (String × String)
  | [], k, v => [(k, v)]
  | (k', v') :: rest, k, v =>
    if k' = k then (k', v) :: rest else (k', v') :: dictInsert rest k v

/-- Python `d.get(k)` / `k in d`. -/
def dictGet : List (String × String) → String → Option String
  | [], _ => none
  | (k', v') :: rest, k => if k' = k then some v' else dictGet rest k

/-! ## The status parser

The loop inside `fetch_apache_status`:
```
for item in data.split('\n'):
    splitted = item.split(': ')
    if len(splitted) == 2:
        key, val = splitted
        server_status[key.strip()] = val.strip()
```
-/

/-- The lines of the response body: `data.split('\n')`. -/
def linesOf (data : String) : List (List Char) := splitSep1 '\n' data.data []

/-- One iteration of the parsing loop, as a partial function: the
key/value entry a line contributes, or `none` when the line is skipped
(`len(splitted) ≠ 2`). -/
def parse_line (item : List Char) : Option (String × String) :=
  match splitSep2 ':' ' ' item [] with
  | [k, v] => some (String.mk (stripChars k), String.mk (stripChars v))
  | _ => none

/-- The parsing loop of `fetch_apache_status`: fold the per-line update
over `data.split('\n')`, starting from the empty dict. -/
def parse_status (data : String) : List (String × String) :=
  (linesOf data).foldl
    (fun d item =>
      match splitSep2 ':' ' ' item [] with
      | [k, v] => dictInsert d (String.mk (stripChars k)) (String.mk (stripChars v))
      | _ => d)
    []

/-! ## Python numeric coercion (`float(str)`, `int(str)`)

Models of the Python builtins on the string values the parser produces:
surrounding whitespace is stripped, an optional sign is accepted, and the
usual decimal forms are recognised (`float`: digits with optional decimal
point and optional exponent; `int`: digits only).  Values are exact
rationals.  Special spellings no claim exercises — `inf`/`nan`, digit
underscores, non-ASCII digits — are not modelled. -/

/-- Horner accumulation of decimal digits. -/
def digitsToNat : List Char → Nat → Nat
  | [], acc => acc
  | c :: rest, acc => digitsToNat rest (acc * 10 + (c.toNat - '0'.toNat))

/-- A non-empty all-digit run, as a natural number. -/
def parseNatDigits (l : List Char) : Option Nat :=
  if l ≠ [] ∧ l.all Char.isDigit then some (digitsToNat l 0) else none

/-- An optional leading `+`/`-`: (negative?, remainder). -/
def parseSign : List Char → Bool × List Char
  | '+' :: rest => (false, rest)
  | '-' :: rest => (true, rest)
  | l => (false, l)

/-- Split at the first character satisfying `p`, dropping it. -/
def splitFirstBy (p : Char → Bool) : List Char → Option (List Char × List Char)
  | [] => none
  | c :: rest =>
    if p c then some ([], rest)
    else
      match splitFirstBy p rest with
      | some (a, b) => some (c :: a, b)
      | none => none

/-- The mantissa of a Python float literal: `digits`, `digits.digits`,
`digits.` or `.digits` (at least one digit overall). -/
def parseMantissa (l : List Char) : Option ℚ :=
  match splitFirstBy (fun c => c = '.') l with
  | none => (parseNatDigits l).map (fun n => (n : ℚ))
  | some (ip, fp) =>
    if ip.all Char.isDigit ∧ fp.all Char.isDigit ∧ (ip ≠ [] ∨ fp ≠ []) then
      some ((digitsToNat ip 0 : ℚ) + (digitsToNat fp 0 : ℚ) / (10 : ℚ) ^ fp.length)
    else none

/-- The exponent of a Python float literal: optional sign and digits. -/
def parseExpo (l : List Char) : Option ℤ :=
  let sl := parseSign l
  (parseNatDigits sl.2).map (fun n => if sl.1 then -(n : ℤ) else (n : ℤ))

/-- Model of Python `float()` on a string: `None` means `ValueError`. -/
def parsePyFloat (s : String) : Option ℚ :=
  let l0 := stripChars s.data
  let sl := parseSign l0
  let signed : ℚ → ℚ := fun q => if sl.1 then -q else q
  match splitFirstBy (fun c => c = 'e' ∨ c = 'E') sl.2 with
  | none => (parseMantissa sl.2).map signed
  | some (m, e) =>
    match parseMantissa m, parseExpo e with
    | some q, some z => some (signed (q * (10 : ℚ) ^ z))
    | _, _ => none

/-- Model of Python `int()` on a string: `None` means `ValueError`. -/
def parsePyInt (s : String) : Option ℤ :=
  let l0 := stripChars s.data
  let sl := parseSign l0
  (parseNatDigits sl.2).map (fun n => if sl.1 then -(n : ℤ) else (n : ℤ))

/-! ## The gauge registry

The eight module-level `Gauge(..., ['hostname'])` objects.  A labelled
gauge is a partial map from the `hostname` label to its current value
(`none` = the label was never set). -/

structure Registry where
  total_accesses : String → Option ℚ
  cpu_load : String → Option ℚ
  uptime : String → Option ℚ
  req_per_sec : String → Option ℚ
  bytes_per_sec : String → Option ℚ
  worker_ratio : String → Option ℚ
  busy_workers : String → Option ℚ
  idle_workers : String → Option ℚ

/-- `gauge.labels(hostname=label).set(v)`. -/
def gset (g : String → Option ℚ) (label : String) (v : ℚ) : String → Option ℚ :=
  fun x => if x = label then some v else g x

/-- The registry at process start: no label has ever been set. -/
def emptyRegistry : Registry :=
  ⟨fun _ => none, fun _ => none, fun _ => none, fun _ => none,
   fun _ => none, fun _ => none, fun _ => none, fun _ => none⟩

/-- The eight gauge values stored for one label, in declaration order. -/
def gaugesAt (reg : Registry) (label : String) : List (Option ℚ) :=
  [reg.total_accesses label, reg.cpu_load label, reg.uptime label,
   reg.req_per_sec label, reg.bytes_per_sec label, reg.worker_ratio label,
   reg.busy_workers label, reg.idle_workers label]

/-! ## Metric projection (`update_metrics`) -/

/-- `float(server_status.get(field, 0))`: an absent field takes the
default `0` (an int, which `float` maps to `0.0`); a present value goes
through `float(str)`, which raises `ValueError` on a non-numeric string —
modelled as `Except.error field`. -/
def floatField (server_status : List (String × String)) (field : String) : Except String ℚ :=
  match dictGet server_status field with
  | none => Except.ok 0
  | some s =>
    match parsePyFloat s with
    | some q => Except.ok q
    | none => Except.error field

/-- `int(server_status.get(field, 0))`, analogously. -/
def intField (server_status : List (String × String)) (field : String) : Except String ℤ :=
  match dictGet server_status field with
  | none => Except.ok 0
  | some s =>
    match parsePyInt s with
    | some z => Except.ok z
    | none => Except.error field

/-- `update_metrics(server_label, server_status, verbose)`: the eight
`.set` calls in source order, each preceded by its numeric coercion.  A
coercion that raises aborts the remaining statements, so the function
returns the registry as mutated *so far* together with `some field` (the
offending field of the `ValueError`), or the fully updated registry and
`none`.  The verbose `print` has no metric effect and is elided. -/
def update_metrics (server_label : String) (server_status : List (String × String))
    (reg : Registry) : Registry × Option String :=
  match floatField server_status "Total Accesses" with
  | .error e => (reg, some e)
  | .ok v1 =>
    let reg1 := { reg with total_accesses := gset reg.total_accesses server_label v1 }
    match floatField server_status "CPULoad" with
    | .error e => (reg1, some e)
    | .ok v2 =>
      let reg2 := { reg1 with cpu_load := gset reg1.cpu_load server_label v2 }
      match floatField server_status "Uptime" with
      | .error e => (reg2, some e)
      | .ok v3 =>
        let reg3 := { reg2 with uptime := gset reg2.uptime server_label v3 }
        match floatField server_status "ReqPerSec" with
        | .error e => (reg3, some e)
        | .ok v4 =>
          let reg4 := { reg3 with req_per_sec := gset reg3.req_per_sec server_label v4 }
          match floatField server_status "BytesPerSec" with
          | .error e => (reg4, some e)
          | .ok v5 =>
            let reg5 := { reg4 with bytes_per_sec := gset reg4.bytes_per_sec server_label v5 }
            match intField server_status "BusyWorkers" with
            | .error e => (reg5, some e)
            | .ok busy_workers =>
              match intField server_status "IdleWorkers" with
              | .error e => (reg5, some e)
              | .ok idle_workers =>
                let reg6 := { reg5 with
                  busy_workers := gset reg5.busy_workers server_label (busy_workers : ℚ) }
                let reg7 := { reg6 with
                  idle_workers := gset reg6.idle_workers server_label (idle_workers : ℚ) }
                let ratio : ℚ :=
                  if 0 < idle_workers then (busy_workers : ℚ) / (idle_workers : ℚ)
                  else (busy_workers : ℚ)
                ({ reg7 with
                  worker_ratio := gset reg7.worker_ratio server_label ratio }, none)

/-! ## URL handling (`urllib.parse`, Python 3.10) -/

structure ParseResult where
  scheme : String
  netloc : String
  path : String
  params : String
  query : String
  fragment : String
deriving DecidableEq

/-- `scheme_chars` from `urllib.parse`. -/
def isSchemeChar (c : Char) : Bool :=
  ("abcdefghijklmnopqrstuvwxyzABCDEFGHIJKLMNOPQRSTUVWXYZ0123456789+-.".data).contains c

def lowerChars (l : List Char) : List Char := l.map Char.toLower

/-- `_UNSAFE_URL_BYTES_TO_REMOVE`: removed anywhere in the URL before parsing. -/
def isUnsafeUrlChar (c : Char) : Bool := c = '\t' ∨ c = '\r' ∨ c = '\n'

/-- `_splitnetloc`: the netloc runs to the first `/`, `?` or `#`. -/
def isNetlocDelim (c : Char) : Bool := c = '/' ∨ c = '?' ∨ c = '#'

/-- Split at the *last* character satisfying `p`, dropping it. -/
def splitLastBy (p : Char → Bool) (l : List Char) : Option (List Char × List Char) :=
  match splitFirstBy p l.reverse with
  | some (a, b) => some (b.reverse, a.reverse)
  | none => none

/-- `_splitparams`: split params off the last path segment (`find(';')`
starting from `rfind('/')` when the path has a slash). -/
def splitparams (url : List Char) : List Char × List Char :=
  if url.contains '/' then
    match splitLastBy (fun c => c = '/') url with
    | some (before, after) =>
      match splitFirstBy (fun c => c = ';') after with
      | some (a, b) => (before ++ '/' :: a, b)
      | none => (url, [])
    | none => (url, [])
  else
    match splitFirstBy (fun c => c = ';') url with
    | some (a, b) => (a, b)
    | none => (url, [])

/-- Scheme extraction: the text before the first `:`, when non-empty and
made of scheme characters, lowercased; otherwise no scheme. -/
def urlSchemeSplit (u : List Char) : List Char × List Char :=
  match splitFirstBy (fun c => c = ':') u with
  | some (before, after) =>
    if before ≠ [] ∧ before.all isSchemeChar then (lowerChars before, after) else ([], u)
  | none => ([], u)

/-- Netloc extraction: after a leading `//`, up to the first `/?#`. -/
def urlNetlocSplit (u : List Char) : List Char × List Char :=
  match u with
  | '/' :: '/' :: rest => rest.span (fun c => ! isNetlocDelim c)
  | _ => ([], u)

/-- Fragment split: everything after the first `#`. -/
def urlFragSplit (u : List Char) : List Char × List Char :=
  match splitFirstBy (fun c => c = '#') u with
  | some (b, a) => (b, a)
  | none => (u, [])

/-- Query split: everything after the first `?`. -/
def urlQuerySplit (u : List Char) : List Char × List Char :=
  match splitFirstBy (fun c => c = '?') u with
  | some (b, a) => (b, a)
  | none => (u, [])

/-- Params split: only when the remaining path has a `;`. -/
def urlParamsSplit (u : List Char) : List Char × List Char :=
  if u.contains ';' then splitparams u else (u, [])

/-- Model of `urllib.parse.urlparse` (= `urlsplit` plus the params
split), Python 3.10: unsafe bytes are removed; a scheme is split off at
the first `:` when the text before it is non-empty and made of scheme
characters (and is lowercased); a netloc follows a leading `//`, up to
the first `/?#`; the fragment is everything after the first `#` of the
remainder; the query everything after the first `?` of what is left;
params are split off the last path segment when it has a `;`.  The
`ValueError` branches for unbalanced IPv6 brackets / invalid netlocs are
not modelled (no claim exercises them). -/
def urlparse (url : String) : ParseResult :=
  let u0 := url.data.filter (fun c => ! isUnsafeUrlChar c)
  let su := urlSchemeSplit u0
  let nu := urlNetlocSplit su.2
  let fu := urlFragSplit nu.2
  let qu := urlQuerySplit fu.1
  let pp := urlParamsSplit qu.1
  ⟨String.mk su.1, String.mk nu.1, String.mk pp.1, String.mk pp.2,
   String.mk qu.2, String.mk fu.2⟩

/-- Model of `urllib.parse.urlunsplit`. -/
def urlunsplit (scheme netloc url query fragment : String) : String :=
  let u1 : List Char :=
    if netloc.data ≠ [] ∨ (url.data ≠ [] ∧ url.data.take 2 = ['/', '/']) then
      '/' :: '/' :: (netloc.data ++
        (if url.data ≠ [] ∧ url.data.take 1 ≠ ['/'] then '/' :: url.data else url.data))
    else url.data
  let u2 := if scheme.data ≠ [] then scheme.data ++ ':' :: u1 else u1
  let u3 := if query.data ≠ [] then u2 ++ '?' :: query.data else u2
  let u4 := if fragment.data ≠ [] then u3 ++ '#' :: fragment.data else u3
  String.mk u4

/-- Model of `urllib.parse.urlunparse`: re-attach params, then unsplit. -/
def urlunparse (p : ParseResult) : String :=
  urlunsplit p.scheme p.netloc
    (String.mk (if p.params.data ≠ [] then p.path.data ++ ';' :: p.params.data
      else p.path.data))
    p.query p.fragment

/-- Replace `+` with space, the decoding step `parse_qsl` applies to
names and values (`%`-escape decoding is not modelled — no claim uses
`%`-escapes). -/
def plusToSpace (l : List Char) : List Char := l.map (fun c => if c = '+' then ' ' else c)

/-- One `&`-separated piece of a query string as kept by `parse_qsl(qs)`
with default arguments: empty pieces are dropped, pieces without `=` are
dropped (no `keep_blank_values`), and pieces with `=` but an empty value
are dropped too. -/
def qslEntry (piece : List Char) : Option (String × String) :=
  if piece = [] then none
  else
    match splitFirstBy (fun c => c = '=') piece with
    | none => none
    | some (name, value) =>
      if value = [] then none
      else some (String.mk (plusToSpace name), String.mk (plusToSpace value))

/-- `parse_qsl(qs)`: the kept (name, value) pairs. -/
def parse_qsl (qs : String) : List (String × String) :=
  (splitSep1 '&' qs.data []).filterMap qslEntry

/-- `'auto' in parse_qs(query)`: `parse_qs` groups `parse_qsl` output by
name, so dict membership is membership among the kept names. -/
def hasAutoParam (qs : String) : Bool :=
  (parse_qsl qs).any (fun e => e.1 = "auto")

/-- `ensure_auto_parameter(url)` from the source. -/
def ensure_auto_parameter (url : String) : String :=
  let parsed_url := urlparse url
  if ¬ hasAutoParam parsed_url.query then
    let new_query : String :=
      if parsed_url.query.data ≠ [] then String.mk (parsed_url.query.data ++ "&auto".data)
      else "auto"
    urlunparse { parsed_url with query := new_query }
  else url

/-! ## Well-formed http(s) URLs, for stating the `ensure_auto_parameter`
contract -/

/-- `scheme://netloc` followed by the path and an optional query. -/
def mkHttpUrl (scheme netloc path query : String) : String :=
  String.mk (scheme.data ++ ':' :: '/' :: '/' :: netloc.data ++ path.data ++
    (if query.data = [] then [] else '?' :: query.data))

/-- A character a netloc may contain without ending it early or being
stripped: not a netloc delimiter and not an unsafe byte. -/
def okNetlocChar (c : Char) : Bool := ! (isNetlocDelim c || isUnsafeUrlChar c)

/-- A character a path may contain without starting the query, fragment
or params, or being stripped. -/
def okPathChar (c : Char) : Bool :=
  ! (c = '?' || c = '#' || c = ';' || isUnsafeUrlChar c)

/-- A character a query may contain without starting the fragment or
being stripped. -/
def okQueryChar (c : Char) : Bool := ! (c = '#' || isUnsafeUrlChar c)

/-! ## Fetch and collection cycle -/

/-- The `proxies` dict built at the top of `fetch_apache_status`
(the `os.environ` export there is invisible to the request — the HTTP
client does not read the environment by default — and is elided). -/
def build_proxies (http_proxy https_proxy : Option String) : List (String × String) :=
  let d : List (String × String) := []
  let d1 := match http_proxy with | some v => dictInsert d "http" v | none => d
  match https_proxy with | some v => dictInsert d1 "https" v | none => d1

/-- The proxy value the code passes to the request:
`session.get(url, proxy=proxies.get('http'))` — whatever the URL's scheme. -/
def request_proxy (http_proxy https_proxy : Option String) : Option String :=
  dictGet (build_proxies http_proxy https_proxy) "http"

/-- `fetch_apache_status(session, url, http_proxy, https_proxy)`: one GET
through the network oracle `net` (which receives the proxy argument the
code passes), then the parsing loop.  Non-2xx statuses
(`raise_for_status`) and transport failures are the oracle's
`Except.error`. -/
def fetch_apache_status (net : String → Option String → Except String String)
    (url : String) (http_proxy https_proxy : Option String) :
    Except String (List (String × String)) :=
  match net url (request_proxy http_proxy https_proxy) with
  | .error e => .error e
  | .ok data => .ok (parse_status data)

/-- `fetch_and_update`: one target's unit of work.  Any exception from
fetch, parse or projection is caught at this boundary and becomes the
diagnostic `(server_label, message)` (the `print` in the `except` arm);
the registry keeps whatever mutations happened before the exception. -/
def fetch_and_update (net : String → Option String → Except String String)
    (server_label url : String) (http_proxy https_proxy : Option String)
    (reg : Registry) : Registry × Option (String × String) :=
  match fetch_apache_status net url http_proxy https_proxy with
  | .error e => (reg, some (server_label, e))
  | .ok server_status =>
    match update_metrics server_label server_status reg with
    | (reg', none) => (reg', none)
    | (reg', some e) => (reg', some (server_label, e))

/-- `config[server_label].get(key, fallback)` for the proxy options. -/
def sectionGet (sec : List (String × String)) (key : String)
    (fallback : Option String) : Option String :=
  match dictGet sec key with
  | some v => some v
  | none => fallback

/-- `collect_metrics(config, global_http_proxy, global_https_proxy,
verbose)`: one cycle over the configuration sections.  A section named
`config` is skipped; for every other section the unit of work runs with
the `auto`-normalised URL and per-target-else-global proxies.  A section
without a `url` key raises `KeyError` at dispatch time, modelled as
`none` for the whole cycle.  The single-threaded event loop is modelled
by running the units in configuration order; the diagnostics the units
print are collected in that order. -/
def collect_metrics (config : List (String × List (String × String)))
    (global_http_proxy global_https_proxy : Option String)
    (net : String → Option String → Except String String) (reg : Registry) :
    Option (Registry × List (String × String)) :=
  match config with
  | [] => some (reg, [])
  | (server_label, sec) :: rest =>
    if server_label = "config" then
      collect_metrics rest global_http_proxy global_https_proxy net reg
    else
      match dictGet sec "url" with
      | none => none
      | some u =>
        let url := ensure_auto_parameter u
        let hp := sectionGet sec "http_proxy" global_http_proxy
        let hps := sectionGet sec "https_proxy" global_https_proxy
        let r1 := fetch_and_update net server_label url hp hps reg
        match collect_metrics rest global_http_proxy global_https_proxy net r1.1 with
        | none => none
        | some (rf, logs) =>
          some (rf, (match r1.2 with | some d => d :: logs | none => logs))

/-- The unit of work `collect_metrics` dispatches for one non-`config`
section: `fetch_and_update` with the `auto`-normalised URL and the
per-target-else-global proxies. -/
def unitOf (net : String → Option String → Except String String)
    (ghp ghps : Option String) (reg : Registry)
    (p : String × List (String × String)) : Registry × Option (String × String) :=
  fetch_and_update net p.1 (ensure_auto_parameter ((dictGet p.2 "url").getD ""))
    (sectionGet p.2 "http_proxy" ghp) (sectionGet p.2 "https_proxy" ghps) reg


/-! ## Basic lemmas about the split, strip and dict primitives -/

theorem splitSep2_length (a b : Char) (l acc : List Char) :
    (splitSep2 a b l acc).length = countSep2 a b l + 1 := by
  induction l, acc using splitSep2.induct a b with
  | case1 acc => simp [splitSep2, countSep2]
  | case2 c acc => simp [splitSep2, countSep2]
  | case3 c d rest acc h ih => simp [splitSep2, countSep2, h, ih]
  | case4 c d rest acc h ih => simp [splitSep2, countSep2, h, ih]

theorem parse_line_isSome_iff (item : List Char) :
    (parse_line item).isSome = true ↔ countSep2 ':' ' ' item = 1 := by
  have h := splitSep2_length ':' ' ' item []
  unfold parse_line
  rcases hs : splitSep2 ':' ' ' item [] with _ | ⟨k, _ | ⟨v, _ | ⟨w, rest⟩⟩⟩ <;>
    rw [hs] at h <;> simp at h ⊢ <;> omega

theorem dictGet_dictInsert_self (d : List (String × String)) (k v : String) :
    dictGet (dictInsert d k v) k = some v := by
  induction d with
  | nil => simp [dictInsert, dictGet]
  | cons e rest ih =>
    obtain ⟨k0, v0⟩ := e
    by_cases h : k0 = k <;> simp [dictInsert, dictGet, h, ih]

theorem dictGet_dictInsert_ne (d : List (String × String)) {k k' : String} (v : String)
    (h : k' ≠ k) : dictGet (dictInsert d k v) k' = dictGet d k' := by
  have h' : ¬ k = k' := fun hh => h hh.symm
  induction d with
  | nil => simp [dictInsert, dictGet, h']
  | cons e rest ih =>
    obtain ⟨k0, v0⟩ := e
    by_cases h0 : k0 = k
    · subst h0
      simp [dictInsert, dictGet, h']
    · simp [dictInsert, dictGet, h0, ih]

theorem length_dictInsert_absent (d : List (String × String)) (k v : String)
    (h : dictGet d k = none) : (dictInsert d k v).length = d.length + 1 := by
  induction d with
  | nil => simp [dictInsert]
  | cons e rest ih =>
    obtain ⟨k0, v0⟩ := e
    by_cases h0 : k0 = k
    · simp [dictGet, h0] at h
    · simp [dictGet, h0] at h
      simp [dictInsert, h0, ih h]

theorem mem_dictInsert {kv : String × String} {d : List (String × String)} {k v : String}
    (h : kv ∈ dictInsert d k v) : kv ∈ d ∨ kv = (k, v) := by
  induction d with
  | nil =>
    simp [dictInsert] at h
    simp [h]
  | cons e rest ih =>
    obtain ⟨k0, v0⟩ := e
    by_cases h0 : k0 = k
    · simp [dictInsert, h0] at h
      rcases h with h | h
      · right; simp [h, h0]
      · left; simp [h]
    · simp [dictInsert, h0] at h
      rcases h with h | h
      · left; simp [h]
      · rcases ih h with h' | h'
        · left; simp [h']
        · right; exact h'

/-- Folding dict assignments over a list of entries with pairwise distinct
keys, none already present, grows the dict by exactly the number of
entries (Python: a `dict` has one slot per distinct key). -/
theorem length_foldl_dictInsert (es : List (String × String)) :
    ∀ d, (∀ e ∈ es, dictGet d e.1 = none) → (es.map Prod.fst).Nodup →
    (es.foldl (fun d e => dictInsert d e.1 e.2) d).length = d.length + es.length := by
  induction es with
  | nil => intro d _ _; simp
  | cons e rest ih =>
    intro d habs hnd
    simp only [List.foldl_cons]
    simp only [List.map_cons, List.nodup_cons, List.mem_map] at hnd
    have habs' : ∀ e' ∈ rest, dictGet (dictInsert d e.1 e.2) e'.1 = none := by
      intro e' he'
      have hne : e'.1 ≠ e.1 := fun hh => hnd.1 ⟨e', he', hh⟩
      rw [dictGet_dictInsert_ne _ _ hne]
      exact habs e' (List.mem_cons_of_mem _ he')
    rw [ih _ habs' hnd.2, length_dictInsert_absent _ _ _ (habs e (List.mem_cons_self e rest))]
    simp [List.length_cons]
    omega

/-- Looking a key up after folding dict assignments: the value of the last
entry carrying that key wins; if no entry carries it, the initial dict
answers (Python: later assignments overwrite earlier ones). -/
theorem dictGet_foldl_dictInsert (es : List (String × String)) :
    ∀ (d : List (String × String)) (k : String),
    dictGet (es.foldl (fun d e => dictInsert d e.1 e.2) d) k =
      ((es.filter (fun e => e.1 = k)).getLast?).elim (dictGet d k) (fun e => some e.2) := by
  induction es with
  | nil => intro d k; simp
  | cons e rest ih =>
    intro d k
    simp only [List.foldl_cons]
    rw [ih]
    by_cases hk : e.1 = k
    · rw [List.filter_cons_of_pos (by simpa using hk)]
      cases hLast : (rest.filter (fun x => x.1 = k)).getLast? with
      | some x =>
        have hne : rest.filter (fun x => x.1 = k) ≠ [] := by
          intro hnil; rw [hnil] at hLast; simp at hLast
        rcases List.exists_cons_of_ne_nil hne with ⟨y, ys, hy⟩
        have hcons : (e :: rest.filter (fun x => x.1 = k)).getLast? = some x := by
          rw [hy, List.getLast?_cons_cons, ← hy, hLast]
        rw [hcons]
        simp
      | none =>
        have hnil : rest.filter (fun x => x.1 = k) = [] :=
          List.getLast?_eq_none_iff.mp hLast
        rw [hnil]
        simp [← hk, dictGet_dictInsert_self]
    · have hne : k ≠ e.1 := fun hh => hk hh.symm
      rw [List.filter_cons_of_neg (by simpa using hk), dictGet_dictInsert_ne _ _ hne]

theorem mem_foldl_dictInsert {kv : String × String} (es : List (String × String)) :
    ∀ d, kv ∈ es.foldl (fun d e => dictInsert d e.1 e.2) d → kv ∈ d ∨ kv ∈ es := by
  induction es with
  | nil => simp
  | cons e rest ih =>
    intro d h
    simp only [List.foldl_cons] at h
    rcases ih _ h with h' | h'
    · rcases mem_dictInsert h' with h'' | h''
      · exact Or.inl h''
      · right; simp [h'']
    · right; simp [h']

theorem length_filterMap_eq_countP {α β : Type} (f : α → Option β) (l : List α) :
    (l.filterMap f).length = l.countP (fun a => (f a).isSome) := by
  induction l with
  | nil => rfl
  | cons a t ih => cases h : f a <;> simp [List.filterMap_cons, h, List.countP_cons, ih]

/-! ## Lemmas about `pyStrip` -/

theorem stripChars_eq_rdropWhile (l : List Char) :
    stripChars l = List.rdropWhile Char.isWhitespace (l.dropWhile Char.isWhitespace) := rfl

theorem dropWhile_eq_self_of_prefix {p : Char → Bool} {x x' : List Char}
    (hx : List.dropWhile p x = x) (hp : x' <+: x) : List.dropWhile p x' = x' := by
  cases hx' : x' with
  | nil => simp
  | cons a t =>
    obtain ⟨s, hs⟩ := hp
    rw [hx'] at hs
    cases x with
    | nil => simp at hs
    | cons b t2 =>
      have hab : a = b := by
        have := congrArg (List.head?) hs
        simpa using this
      have hnb : ¬ p b = true := by
        intro hpb
        rw [List.dropWhile_cons, if_pos hpb] at hx
        have hle : (List.dropWhile p t2).length ≤ t2.length :=
          (List.dropWhile_suffix p).length_le
        rw [hx] at hle
        simp at hle
      rw [List.dropWhile_cons, hab, if_neg hnb]

theorem stripChars_idem (l : List Char) : stripChars (stripChars l) = stripChars l := by
  have h1 : List.dropWhile Char.isWhitespace
      (List.dropWhile Char.isWhitespace l) = List.dropWhile Char.isWhitespace l :=
    List.dropWhile_idempotent _ _
  have hpre := List.rdropWhile_prefix Char.isWhitespace (List.dropWhile Char.isWhitespace l)
  have h2 := dropWhile_eq_self_of_prefix h1 hpre
  rw [stripChars_eq_rdropWhile, stripChars_eq_rdropWhile, h2, List.rdropWhile_idempotent]

theorem pyStrip_mk (l : List Char) : pyStrip (String.mk l) = String.mk (stripChars l) := rfl

theorem parse_line_stripped {item : List Char} {kv : String × String}
    (h : parse_line item = some kv) : pyStrip kv.1 = kv.1 ∧ pyStrip kv.2 = kv.2 := by
  unfold parse_line at h
  rcases hs : splitSep2 ':' ' ' item [] with _ | ⟨k, _ | ⟨v, _ | ⟨w, rest⟩⟩⟩ <;>
    rw [hs] at h <;> simp at h
  rw [← h]
  constructor <;> rw [pyStrip_mk, stripChars_idem]

/-! ## The parsing loop as a fold over the kept lines -/

theorem parse_step_eq (d : List (String × String)) (item : List Char) :
    (match splitSep2 ':' ' ' item [] with
      | [k, v] => dictInsert d (String.mk (stripChars k)) (String.mk (stripChars v))
      | _ => d) =
    (match parse_line item with
      | some kv => dictInsert d kv.1 kv.2
      | none => d) := by
  unfold parse_line
  rcases hs : splitSep2 ':' ' ' item [] with _ | ⟨k, _ | ⟨v, _ | ⟨w, rest⟩⟩⟩ <;> simp [hs]

theorem parse_status_eq (data : String) :
    parse_status data = ((linesOf data).filterMap parse_line).foldl
      (fun d kv => dictInsert d kv.1 kv.2) [] := by
  unfold parse_status
  suffices h : ∀ (ls : List (List Char)) (d : List (String × String)),
      ls.foldl (fun d item =>
        match splitSep2 ':' ' ' item [] with
        | [k, v] => dictInsert d (String.mk (stripChars k)) (String.mk (stripChars v))
        | _ => d) d
      = (ls.filterMap parse_line).foldl (fun d kv => dictInsert d kv.1 kv.2) d from
    h (linesOf data) []
  intro ls
  induction ls with
  | nil => intro d; simp
  | cons item rest ih =>
    intro d
    simp only [List.foldl_cons, List.filterMap_cons]
    rw [parse_step_eq]
    cases hp : parse_line item with
    | none => simp [ih]
    | some kv => simp [List.foldl_cons, ih]

/-! ## Claims C4 and C5: the status parser -/

/-- **C4** (counterexample): the line `"Key: a: b"` contains two
occurrences of `": "` (so at least one), yet the parser produces no entry
for it — Python `item.split(': ')` splits at *every* occurrence, yielding
three parts, and the `len(splitted) == 2` guard skips the line.  This
refutes the claim that any line with at least one `": "` is split at the
first occurrence into a key/value entry. -/
theorem C4_counterexample :
    countSep2 ':' ' ' "Key: a: b".data = 2 ∧ parse_status "Key: a: b" = [] := by decide

/-- **C4** (amended): a line yields a key/value entry if and only if it
contains *exactly one* occurrence of the separator `": "`; lines with no
occurrence, or with two or more occurrences, are skipped. -/
theorem C4_line_split (item : List Char) :
    (∃ kv, parse_line item = some kv) ↔ countSep2 ':' ' ' item = 1 := by
  rw [← parse_line_isSome_iff, Option.isSome_iff_exists]

/-- **C5**: for every input text, (1) when the kept lines carry pairwise
distinct trimmed keys, the parsed mapping's size equals the number of
lines containing exactly one `": "` separator (only this size clause
needs the distinctness proviso); (2) unconditionally, every key and value
in the mapping is whitespace-trimmed (fixed by `pyStrip`); and (3)
unconditionally — duplicate keys included — lookups return the value of
the *last* kept line bearing that trimmed key (later lines overwrite
earlier ones). -/
theorem C5_parse_contract (data : String) :
    ((((linesOf data).filterMap parse_line).map Prod.fst).Nodup →
      (parse_status data).length
        = (linesOf data).countP (fun item => countSep2 ':' ' ' item == 1))
    ∧ (∀ kv ∈ parse_status data, pyStrip kv.1 = kv.1 ∧ pyStrip kv.2 = kv.2)
    ∧ (∀ k, dictGet (parse_status data) k =
        (((linesOf data).filterMap parse_line).filter
          (fun e => e.1 = k)).getLast?.map Prod.snd) := by
  refine ⟨?_, ?_, ?_⟩
  · intro hkeys
    rw [parse_status_eq,
      length_foldl_dictInsert _ [] (fun e _ => rfl) hkeys,
      length_filterMap_eq_countP]
    simp only [List.length_nil, Nat.zero_add]
    apply List.countP_congr
    intro item _
    rw [parse_line_isSome_iff]
    simp
  · intro kv hkv
    rw [parse_status_eq] at hkv
    rcases mem_foldl_dictInsert _ _ hkv with h | h
    · simp at h
    · rcases List.mem_filterMap.mp h with ⟨item, _, hline⟩
      exact parse_line_stripped hline
  · intro k
    rw [parse_status_eq, dictGet_foldl_dictInsert]
    cases hLast : (((linesOf data).filterMap parse_line).filter
        (fun e => e.1 = k)).getLast? <;> simp [dictGet]

/-- Witness for C5: the spec's duplicate-key scenario — `BusyWorkers: 3`
followed by `BusyWorkers: 7` — looks up to `"7"` (the last occurrence
wins) with every stored key and value trimmed; and on a text with
pairwise distinct keys (two well-formed lines, one malformed line, one
line with a doubled separator) the mapping size equals the number of
exactly-one-separator lines. -/
theorem C5_witness :
    dictGet (parse_status "BusyWorkers: 3\nBusyWorkers: 7") "BusyWorkers" = some "7"
    ∧ (∀ kv ∈ parse_status "BusyWorkers: 3\nBusyWorkers: 7",
        pyStrip kv.1 = kv.1 ∧ pyStrip kv.2 = kv.2)
    ∧ ((((linesOf "A: 1\nB: 2\nnope\nC: x: y").filterMap parse_line).map Prod.fst).Nodup
      ∧ (parse_status "A: 1\nB: 2\nnope\nC: x: y").length
          = (linesOf "A: 1\nB: 2\nnope\nC: x: y").countP
              (fun item => countSep2 ':' ' ' item == 1)) := by
  refine ⟨?_, (C5_parse_contract "BusyWorkers: 3\nBusyWorkers: 7").2.1,
    by decide, (C5_parse_contract "A: 1\nB: 2\nnope\nC: x: y").1 (by decide)⟩
  have h := (C5_parse_contract "BusyWorkers: 3\nBusyWorkers: 7").2.2 "BusyWorkers"
  rw [h]
  decide

/-! ## Shape lemmas for `update_metrics`

One lemma per exit point of `update_metrics`: which registry mutations
have happened when each numeric coercion raises, and the full-success
shape. -/

theorem gset_same (g : String → Option ℚ) (l : String) (v : ℚ) : gset g l v l = some v := by
  simp [gset]

theorem gset_other (g : String → Option ℚ) (l : String) (v : ℚ) {x : String} (h : x ≠ l) :
    gset g l v x = g x := by
  simp [gset, h]

theorem gset_gset (g : String → Option ℚ) (l : String) (v w : ℚ) :
    gset (gset g l v) l w = gset g l w := by
  funext x
  by_cases h : x = l <;> simp [gset, h]

section UpdateShapes

variable {st : List (String × String)} {v1 v2 v3 v4 v5 : ℚ} {b i : ℤ} {e : String}
variable (l : String) (reg : Registry)

theorem update_metrics_err1 (h1 : floatField st "Total Accesses" = .error e) :
    update_metrics l st reg = (reg, some e) := by
  unfold update_metrics
  rw [h1]

theorem update_metrics_err2 (h1 : floatField st "Total Accesses" = .ok v1)
    (h2 : floatField st "CPULoad" = .error e) :
    update_metrics l st reg =
      ({ reg with total_accesses := gset reg.total_accesses l v1 }, some e) := by
  unfold update_metrics
  rw [h1, h2]

theorem update_metrics_err3 (h1 : floatField st "Total Accesses" = .ok v1)
    (h2 : floatField st "CPULoad" = .ok v2)
    (h3 : floatField st "Uptime" = .error e) :
    update_metrics l st reg =
      ({ reg with total_accesses := gset reg.total_accesses l v1,
                  cpu_load := gset reg.cpu_load l v2 }, some e) := by
  unfold update_metrics
  rw [h1, h2, h3]

theorem update_metrics_err4 (h1 : floatField st "Total Accesses" = .ok v1)
    (h2 : floatField st "CPULoad" = .ok v2)
    (h3 : floatField st "Uptime" = .ok v3)
    (h4 : floatField st "ReqPerSec" = .error e) :
    update_metrics l st reg =
      ({ reg with total_accesses := gset reg.total_accesses l v1,
                  cpu_load := gset reg.cpu_load l v2,
                  uptime := gset reg.uptime l v3 }, some e) := by
  unfold update_metrics
  rw [h1, h2, h3, h4]

theorem update_metrics_err5 (h1 : floatField st "Total Accesses" = .ok v1)
    (h2 : floatField st "CPULoad" = .ok v2)
    (h3 : floatField st "Uptime" = .ok v3)
    (h4 : floatField st "ReqPerSec" = .ok v4)
    (h5 : floatField st "BytesPerSec" = .error e) :
    update_metrics l st reg =
      ({ reg with total_accesses := gset reg.total_accesses l v1,
                  cpu_load := gset reg.cpu_load l v2,
                  uptime := gset reg.uptime l v3,
                  req_per_sec := gset reg.req_per_sec l v4 }, some e) := by
  unfold update_metrics
  rw [h1, h2, h3, h4, h5]

theorem update_metrics_err6 (h1 : floatField st "Total Accesses" = .ok v1)
    (h2 : floatField st "CPULoad" = .ok v2)
    (h3 : floatField st "Uptime" = .ok v3)
    (h4 : floatField st "ReqPerSec" = .ok v4)
    (h5 : floatField st "BytesPerSec" = .ok v5)
    (h6 : intField st "BusyWorkers" = .error e) :
    update_metrics l st reg =
      ({ reg with total_accesses := gset reg.total_accesses l v1,
                  cpu_load := gset reg.cpu_load l v2,
                  uptime := gset reg.uptime l v3,
                  req_per_sec := gset reg.req_per_sec l v4,
                  bytes_per_sec := gset reg.bytes_per_sec l v5 }, some e) := by
  unfold update_metrics
  rw [h1, h2, h3, h4, h5, h6]

theorem update_metrics_err7 (h1 : floatField st "Total Accesses" = .ok v1)
    (h2 : floatField st "CPULoad" = .ok v2)
    (h3 : floatField st "Uptime" = .ok v3)
    (h4 : floatField st "ReqPerSec" = .ok v4)
    (h5 : floatField st "BytesPerSec" = .ok v5)
    (h6 : intField st "BusyWorkers" = .ok b)
    (h7 : intField st "IdleWorkers" = .error e) :
    update_metrics l st reg =
      ({ reg with total_accesses := gset reg.total_accesses l v1,
                  cpu_load := gset reg.cpu_load l v2,
                  uptime := gset reg.uptime l v3,
                  req_per_sec := gset reg.req_per_sec l v4,
                  bytes_per_sec := gset reg.bytes_per_sec l v5 }, some e) := by
  unfold update_metrics
  rw [h1, h2, h3, h4, h5, h6, h7]

theorem update_metrics_ok (h1 : floatField st "Total Accesses" = .ok v1)
    (h2 : floatField st "CPULoad" = .ok v2)
    (h3 : floatField st "Uptime" = .ok v3)
    (h4 : floatField st "ReqPerSec" = .ok v4)
    (h5 : floatField st "BytesPerSec" = .ok v5)
    (h6 : intField st "BusyWorkers" = .ok b)
    (h7 : intField st "IdleWorkers" = .ok i) :
    update_metrics l st reg =
      ({ reg with total_accesses := gset reg.total_accesses l v1,
                  cpu_load := gset reg.cpu_load l v2,
                  uptime := gset reg.uptime l v3,
                  req_per_sec := gset reg.req_per_sec l v4,
                  bytes_per_sec := gset reg.bytes_per_sec l v5,
                  worker_ratio := gset reg.worker_ratio l
                    (if 0 < i then (b : ℚ) / (i : ℚ) else (b : ℚ)),
                  busy_workers := gset reg.busy_workers l (b : ℚ),
                  idle_workers := gset reg.idle_workers l (i : ℚ) }, none) := by
  unfold update_metrics
  rw [h1, h2, h3, h4, h5, h6, h7]

end UpdateShapes

/-! ## Claims C2, C7, C9: metric projection -/

/-- **C2** (counterexample): with status mapping `{"CPULoad": "abc"}` the
projection does *not* set the CPULoad gauge to `0` and continue — it
raises at the coercion (`float("abc")`), so the cycle for this target
fails (`some "CPULoad"`), the CPULoad gauge is left unset, and the
remaining fields are never projected; only the earlier `Total Accesses`
assignment (absent → default `0`) has happened.  This refutes "a
non-numeric value is recoverable per field and never fatal to that
target's cycle". -/
theorem C2_counterexample :
    (update_metrics "srv" [("CPULoad", "abc")] emptyRegistry).2 = some "CPULoad"
    ∧ (update_metrics "srv" [("CPULoad", "abc")] emptyRegistry).1.cpu_load "srv" = none
    ∧ (update_metrics "srv" [("CPULoad", "abc")] emptyRegistry).1.busy_workers "srv" = none
    ∧ (update_metrics "srv" [("CPULoad", "abc")] emptyRegistry).1.total_accesses "srv"
        = some 0 := by
  refine ⟨rfl, rfl, rfl, rfl⟩

/-- **C2** (amended): a field *absent* from the parsed mapping is
projected as `0` and projection proceeds; but a field *present with a
non-numeric value* raises a `ValueError` that aborts the rest of that
target's projection (the target's cycle fails and the offending field's
gauge keeps its previous value). -/
theorem C2_defaults_and_coercion (l : String) (st : List (String × String)) (reg : Registry) :
    (dictGet st "Total Accesses" = none → (update_metrics l st reg).2 = none →
        (update_metrics l st reg).1.total_accesses l = some 0)
    ∧ (∀ s, dictGet st "CPULoad" = some s → parsePyFloat s = none →
        (update_metrics l st reg).2 ≠ none
        ∧ (update_metrics l st reg).1.cpu_load l = reg.cpu_load l) := by
  constructor
  · intro habs hok
    have h1 : floatField st "Total Accesses" = Except.ok 0 := by
      unfold floatField
      rw [habs]
    cases h2 : floatField st "CPULoad" with
    | error e => rw [update_metrics_err2 l reg h1 h2] at hok; simp at hok
    | ok v2 =>
      cases h3 : floatField st "Uptime" with
      | error e => rw [update_metrics_err3 l reg h1 h2 h3] at hok; simp at hok
      | ok v3 =>
        cases h4 : floatField st "ReqPerSec" with
        | error e => rw [update_metrics_err4 l reg h1 h2 h3 h4] at hok; simp at hok
        | ok v4 =>
          cases h5 : floatField st "BytesPerSec" with
          | error e => rw [update_metrics_err5 l reg h1 h2 h3 h4 h5] at hok; simp at hok
          | ok v5 =>
            cases h6 : intField st "BusyWorkers" with
            | error e => rw [update_metrics_err6 l reg h1 h2 h3 h4 h5 h6] at hok; simp at hok
            | ok b =>
              cases h7 : intField st "IdleWorkers" with
              | error e =>
                rw [update_metrics_err7 l reg h1 h2 h3 h4 h5 h6 h7] at hok; simp at hok
              | ok i =>
                rw [update_metrics_ok l reg h1 h2 h3 h4 h5 h6 h7]
                simp [gset_same]
  · intro s hs hnum
    have h2 : floatField st "CPULoad" = Except.error "CPULoad" := by
      unfold floatField
      rw [hs]
      simp [hnum]
    cases h1 : floatField st "Total Accesses" with
    | error e =>
      rw [update_metrics_err1 l reg h1]
      simp
    | ok v1 =>
      rw [update_metrics_err2 l reg h1 h2]
      simp

/-- Witness for C2: the absent-field default at the empty mapping, and
the coercion error at `{"CPULoad": "abc"}`. -/
theorem C2_witness :
    (update_metrics "s" [] emptyRegistry).1.total_accesses "s" = some 0
    ∧ ((update_metrics "s" [("CPULoad", "abc")] emptyRegistry).2 ≠ none
        ∧ (update_metrics "s" [("CPULoad", "abc")] emptyRegistry).1.cpu_load "s"
            = emptyRegistry.cpu_load "s") :=
  ⟨(C2_defaults_and_coercion "s" [] emptyRegistry).1 rfl rfl,
   (C2_defaults_and_coercion "s" [("CPULoad", "abc")] emptyRegistry).2 "abc" rfl rfl⟩

/-- **C7**: when every coercion succeeds, the worker_ratio gauge is set
to `busy / idle` when `idle > 0` and to `busy` when `idle = 0`, and the
zero-idle case is not an error (the projection completes). -/
theorem C7_worker_ratio (l : String) (st : List (String × String)) (reg : Registry)
    {v1 v2 v3 v4 v5 : ℚ} {b i : ℤ}
    (h1 : floatField st "Total Accesses" = .ok v1)
    (h2 : floatField st "CPULoad" = .ok v2)
    (h3 : floatField st "Uptime" = .ok v3)
    (h4 : floatField st "ReqPerSec" = .ok v4)
    (h5 : floatField st "BytesPerSec" = .ok v5)
    (h6 : intField st "BusyWorkers" = .ok b)
    (h7 : intField st "IdleWorkers" = .ok i) :
    (update_metrics l st reg).2 = none
    ∧ (update_metrics l st reg).1.worker_ratio l
        = some (if 0 < i then (b : ℚ) / (i : ℚ) else (b : ℚ)) := by
  rw [update_metrics_ok l reg h1 h2 h3 h4 h5 h6 h7]
  simp [gset_same]

/-- Witness for C7: `BusyWorkers=5, IdleWorkers=0` gives ratio `5`
(fallback, no error); `BusyWorkers=3, IdleWorkers=6` gives ratio `1/2`. -/
theorem C7_witness :
    ((update_metrics "s" [("BusyWorkers", "5"), ("IdleWorkers", "0")]
        emptyRegistry).2 = none
      ∧ (update_metrics "s" [("BusyWorkers", "5"), ("IdleWorkers", "0")]
        emptyRegistry).1.worker_ratio "s" = some 5)
    ∧ (update_metrics "s" [("BusyWorkers", "3"), ("IdleWorkers", "6")]
        emptyRegistry).1.worker_ratio "s" = some (1 / 2 : ℚ) := by
  refine ⟨⟨?_, ?_⟩, ?_⟩
  · exact (C7_worker_ratio "s" [("BusyWorkers", "5"), ("IdleWorkers", "0")]
      emptyRegistry rfl rfl rfl rfl rfl
      (show intField [("BusyWorkers", "5"), ("IdleWorkers", "0")] "BusyWorkers"
        = Except.ok 5 from rfl)
      (show intField [("BusyWorkers", "5"), ("IdleWorkers", "0")] "IdleWorkers"
        = Except.ok 0 from rfl)).1
  · have h := (C7_worker_ratio "s" [("BusyWorkers", "5"), ("IdleWorkers", "0")]
      emptyRegistry rfl rfl rfl rfl rfl
      (show intField [("BusyWorkers", "5"), ("IdleWorkers", "0")] "BusyWorkers"
        = Except.ok 5 from rfl)
      (show intField [("BusyWorkers", "5"), ("IdleWorkers", "0")] "IdleWorkers"
        = Except.ok 0 from rfl)).2
    norm_num at h
    exact h
  · have h := (C7_worker_ratio "s" [("BusyWorkers", "3"), ("IdleWorkers", "6")]
      emptyRegistry rfl rfl rfl rfl rfl
      (show intField [("BusyWorkers", "3"), ("IdleWorkers", "6")] "BusyWorkers"
        = Except.ok 3 from rfl)
      (show intField [("BusyWorkers", "3"), ("IdleWorkers", "6")] "IdleWorkers"
        = Except.ok 6 from rfl)).2
    norm_num at h
    exact h

/-- **C9**: projection is idempotent — running `update_metrics` a second
time with the identical label and mapping returns the same registry and
the same outcome (gauges are overwritten, never accumulated), including
when the projection fails part-way. -/
theorem C9_projection_idempotent (l : String) (st : List (String × String)) (reg : Registry) :
    update_metrics l st (update_metrics l st reg).1 = update_metrics l st reg := by
  cases h1 : floatField st "Total Accesses" with
  | error e =>
    rw [update_metrics_err1 l reg h1]
    exact update_metrics_err1 l reg h1
  | ok v1 =>
    cases h2 : floatField st "CPULoad" with
    | error e =>
      rw [update_metrics_err2 l reg h1 h2, update_metrics_err2 l _ h1 h2]
      simp [gset_gset]
    | ok v2 =>
      cases h3 : floatField st "Uptime" with
      | error e =>
        rw [update_metrics_err3 l reg h1 h2 h3, update_metrics_err3 l _ h1 h2 h3]
        simp [gset_gset]
      | ok v3 =>
        cases h4 : floatField st "ReqPerSec" with
        | error e =>
          rw [update_metrics_err4 l reg h1 h2 h3 h4, update_metrics_err4 l _ h1 h2 h3 h4]
          simp [gset_gset]
        | ok v4 =>
          cases h5 : floatField st "BytesPerSec" with
          | error e =>
            rw [update_metrics_err5 l reg h1 h2 h3 h4 h5,
              update_metrics_err5 l _ h1 h2 h3 h4 h5]
            simp [gset_gset]
          | ok v5 =>
            cases h6 : intField st "BusyWorkers" with
            | error e =>
              rw [update_metrics_err6 l reg h1 h2 h3 h4 h5 h6,
                update_metrics_err6 l _ h1 h2 h3 h4 h5 h6]
              simp [gset_gset]
            | ok b =>
              cases h7 : intField st "IdleWorkers" with
              | error e =>
                rw [update_metrics_err7 l reg h1 h2 h3 h4 h5 h6 h7,
                  update_metrics_err7 l _ h1 h2 h3 h4 h5 h6 h7]
                simp [gset_gset]
              | ok i =>
                rw [update_metrics_ok l reg h1 h2 h3 h4 h5 h6 h7,
                  update_metrics_ok l _ h1 h2 h3 h4 h5 h6 h7]
                simp [gset_gset]

/-! ## Claims C1 and C8: failure effects and proxy handling -/

/-- **C1** (counterexample): the target `web` holds `total_accesses = 1`
from an earlier cycle; a cycle that fetches
`"Total Accesses: 5\nCPULoad: abc"` *fails* (coercion error on CPULoad,
diagnostic logged for `web`), yet the total_accesses gauge now reads `5`.
A failed cycle does not leave every gauge for the label unchanged: the
assignments made before the exception persist. -/
theorem C1_counterexample :
    (fetch_and_update (fun _ _ => Except.ok "Total Accesses: 5\nCPULoad: abc")
        "web" "http://web/server-status?auto" none none
        { emptyRegistry with
          total_accesses := gset emptyRegistry.total_accesses "web" 1 }).2
      = some ("web", "CPULoad")
    ∧ (fetch_and_update (fun _ _ => Except.ok "Total Accesses: 5\nCPULoad: abc")
        "web" "http://web/server-status?auto" none none
        { emptyRegistry with
          total_accesses := gset emptyRegistry.total_accesses "web" 1 }).1.total_accesses
        "web" = some 5
    ∧ ({ emptyRegistry with
          total_accesses := gset emptyRegistry.total_accesses "web" 1 }
        : Registry).total_accesses "web" = some 1 :=
  ⟨rfl, rfl, rfl⟩

/-- **C1** (amended): gauges reflect the most recent successful parse
except across a projection failure.  If a target's unit of work fails
during transport, the registry is returned exactly unchanged and the
diagnostic carries that target's label; if it fails during projection,
the gauges of fields coerced before the failure keep their newly
projected values, while the busy_workers, idle_workers and worker_ratio
gauges — whose assignments only run after every coercion has succeeded —
are always left unchanged. -/
theorem C1_failed_cycle_effects :
    (∀ (net : String → Option String → Except String String) (l u : String)
        (hp hps : Option String) (reg : Registry) (e : String),
        net u (request_proxy hp hps) = Except.error e →
        fetch_and_update net l u hp hps reg = (reg, some (l, e)))
    ∧ (∀ (l : String) (st : List (String × String)) (reg : Registry),
        (update_metrics l st reg).2 ≠ none →
        (update_metrics l st reg).1.busy_workers l = reg.busy_workers l
        ∧ (update_metrics l st reg).1.idle_workers l = reg.idle_workers l
        ∧ (update_metrics l st reg).1.worker_ratio l = reg.worker_ratio l) := by
  constructor
  · intro net l u hp hps reg e he
    unfold fetch_and_update fetch_apache_status
    rw [he]
  · intro l st reg herr
    cases h1 : floatField st "Total Accesses" with
    | error e => rw [update_metrics_err1 l reg h1]; exact ⟨rfl, rfl, rfl⟩
    | ok v1 =>
      cases h2 : floatField st "CPULoad" with
      | error e => rw [update_metrics_err2 l reg h1 h2]; exact ⟨rfl, rfl, rfl⟩
      | ok v2 =>
        cases h3 : floatField st "Uptime" with
        | error e => rw [update_metrics_err3 l reg h1 h2 h3]; exact ⟨rfl, rfl, rfl⟩
        | ok v3 =>
          cases h4 : floatField st "ReqPerSec" with
          | error e => rw [update_metrics_err4 l reg h1 h2 h3 h4]; exact ⟨rfl, rfl, rfl⟩
          | ok v4 =>
            cases h5 : floatField st "BytesPerSec" with
            | error e => rw [update_metrics_err5 l reg h1 h2 h3 h4 h5]; exact ⟨rfl, rfl, rfl⟩
            | ok v5 =>
              cases h6 : intField st "BusyWorkers" with
              | error e =>
                rw [update_metrics_err6 l reg h1 h2 h3 h4 h5 h6]; exact ⟨rfl, rfl, rfl⟩
              | ok b =>
                cases h7 : intField st "IdleWorkers" with
                | error e =>
                  rw [update_metrics_err7 l reg h1 h2 h3 h4 h5 h6 h7]; exact ⟨rfl, rfl, rfl⟩
                | ok i =>
                  exfalso
                  rw [update_metrics_ok l reg h1 h2 h3 h4 h5 h6 h7] at herr
                  simp at herr

/-- Witness for C1: a transport failure leaves the registry untouched
and is logged for the target; a projection failure leaves the
busy/idle/ratio gauges untouched. -/
theorem C1_witness :
    fetch_and_update (fun _ _ => Except.error "timeout") "web" "http://w/?auto"
        none none emptyRegistry = (emptyRegistry, some ("web", "timeout"))
    ∧ ((update_metrics "s" [("CPULoad", "abc")] emptyRegistry).1.busy_workers "s"
          = emptyRegistry.busy_workers "s"
      ∧ (update_metrics "s" [("CPULoad", "abc")] emptyRegistry).1.idle_workers "s"
          = emptyRegistry.idle_workers "s"
      ∧ (update_metrics "s" [("CPULoad", "abc")] emptyRegistry).1.worker_ratio "s"
          = emptyRegistry.worker_ratio "s") :=
  ⟨C1_failed_cycle_effects.1 (fun _ _ => Except.error "timeout") "web" "http://w/?auto"
      none none emptyRegistry "timeout" rfl,
   C1_failed_cycle_effects.2 "s" [("CPULoad", "abc")] emptyRegistry (by decide)⟩

theorem request_proxy_eq_http (hp hps : Option String) : request_proxy hp hps = hp := by
  cases hp <;> cases hps <;> rfl

/-- **C8** (counterexample): for an https URL with no http proxy and an
https proxy configured, the request is made with *no* proxy at all — the
code passes `proxies.get('http')` whatever the URL scheme, so the https
proxy is never handed to the request.  The oracle here reports the proxy
argument it received. -/
theorem C8_counterexample :
    request_proxy none (some "http://proxy:3128") = none
    ∧ fetch_apache_status
        (fun _ pr => Except.error (match pr with | some p => p | none => "NO-PROXY"))
        "https://internal/server-status?auto" none (some "http://proxy:3128")
      = Except.error "NO-PROXY" :=
  ⟨rfl, rfl⟩

/-- **C8** (amended): the proxy for a target is resolved as the
target-specific override if configured, else the global default; but the
proxy actually applied to the request is always the resolved *http*
proxy, for every URL regardless of protocol — the https proxy is only
exported to the process environment, which the HTTP client ignores. -/
theorem C8_proxy_resolution :
    (∀ (sec : List (String × String)) (key : String) (g : Option String),
        (dictGet sec key = none → sectionGet sec key g = g)
        ∧ (∀ v, dictGet sec key = some v → sectionGet sec key g = some v))
    ∧ (∀ hp hps : Option String, request_proxy hp hps = hp)
    ∧ (∀ (net : String → Option String → Except String String) (url : String)
        (hp hps : Option String),
        fetch_apache_status net url hp hps =
          match net url hp with
          | .error e => .error e
          | .ok data => .ok (parse_status data)) := by
  refine ⟨?_, request_proxy_eq_http, ?_⟩
  · intro sec key g
    constructor
    · intro h
      unfold sectionGet
      rw [h]
    · intro v h
      unfold sectionGet
      rw [h]
  · intro net url hp hps
    unfold fetch_apache_status
    rw [request_proxy_eq_http]

/-- Witness for C8: the override wins when present, the global is used
when absent, and with both proxies configured the http one is applied. -/
theorem C8_witness :
    sectionGet [("http_proxy", "http://p:1")] "http_proxy" (some "http://g:2")
        = some "http://p:1"
    ∧ sectionGet [] "http_proxy" (some "http://g:2") = some "http://g:2"
    ∧ request_proxy (some "http://A") (some "http://B") = some "http://A" :=
  ⟨(C8_proxy_resolution.1 [("http_proxy", "http://p:1")] "http_proxy"
      (some "http://g:2")).2 "http://p:1" rfl,
   (C8_proxy_resolution.1 [] "http_proxy" (some "http://g:2")).1 rfl,
   C8_proxy_resolution.2.1 (some "http://A") (some "http://B")⟩

/-! ## Lemmas about `fetch_and_update` and `collect_metrics` -/

theorem fetch_and_update_err (net : String → Option String → Except String String)
    (l u : String) (hp hps : Option String) (reg : Registry) {e : String}
    (hf : fetch_apache_status net u hp hps = .error e) :
    fetch_and_update net l u hp hps reg = (reg, some (l, e)) := by
  unfold fetch_and_update
  rw [hf]

theorem fetch_and_update_ok (net : String → Option String → Except String String)
    (l u : String) (hp hps : Option String) (reg : Registry)
    {st : List (String × String)} (hf : fetch_apache_status net u hp hps = .ok st) :
    fetch_and_update net l u hp hps reg
      = ((update_metrics l st reg).1,
         (update_metrics l st reg).2.map (fun e => (l, e))) := by
  unfold fetch_and_update
  rw [hf]
  rcases hu : update_metrics l st reg with ⟨r, o⟩
  cases o <;> simp [hu]

theorem update_metrics_other_label (l : String) (st : List (String × String))
    (reg : Registry) {x : String} (hx : x ≠ l) :
    gaugesAt (update_metrics l st reg).1 x = gaugesAt reg x := by
  cases h1 : floatField st "Total Accesses" with
  | error e => rw [update_metrics_err1 l reg h1]
  | ok v1 =>
    cases h2 : floatField st "CPULoad" with
    | error e => rw [update_metrics_err2 l reg h1 h2]; simp [gaugesAt, gset, hx]
    | ok v2 =>
      cases h3 : floatField st "Uptime" with
      | error e => rw [update_metrics_err3 l reg h1 h2 h3]; simp [gaugesAt, gset, hx]
      | ok v3 =>
        cases h4 : floatField st "ReqPerSec" with
        | error e => rw [update_metrics_err4 l reg h1 h2 h3 h4]; simp [gaugesAt, gset, hx]
        | ok v4 =>
          cases h5 : floatField st "BytesPerSec" with
          | error e => rw [update_metrics_err5 l reg h1 h2 h3 h4 h5]; simp [gaugesAt, gset, hx]
          | ok v5 =>
            cases h6 : intField st "BusyWorkers" with
            | error e =>
              rw [update_metrics_err6 l reg h1 h2 h3 h4 h5 h6]; simp [gaugesAt, gset, hx]
            | ok b =>
              cases h7 : intField st "IdleWorkers" with
              | error e =>
                rw [update_metrics_err7 l reg h1 h2 h3 h4 h5 h6 h7]
                simp [gaugesAt, gset, hx]
              | ok i =>
                rw [update_metrics_ok l reg h1 h2 h3 h4 h5 h6 h7]
                simp [gaugesAt, gset, hx]

theorem update_metrics_snd_congr (l : String) (st : List (String × String))
    (reg reg' : Registry) :
    (update_metrics l st reg).2 = (update_metrics l st reg').2 := by
  cases h1 : floatField st "Total Accesses" with
  | error e => rw [update_metrics_err1 l reg h1, update_metrics_err1 l reg' h1]
  | ok v1 =>
    cases h2 : floatField st "CPULoad" with
    | error e => rw [update_metrics_err2 l reg h1 h2, update_metrics_err2 l reg' h1 h2]
    | ok v2 =>
      cases h3 : floatField st "Uptime" with
      | error e => rw [update_metrics_err3 l reg h1 h2 h3, update_metrics_err3 l reg' h1 h2 h3]
      | ok v3 =>
        cases h4 : floatField st "ReqPerSec" with
        | error e =>
          rw [update_metrics_err4 l reg h1 h2 h3 h4, update_metrics_err4 l reg' h1 h2 h3 h4]
        | ok v4 =>
          cases h5 : floatField st "BytesPerSec" with
          | error e =>
            rw [update_metrics_err5 l reg h1 h2 h3 h4 h5,
              update_metrics_err5 l reg' h1 h2 h3 h4 h5]
          | ok v5 =>
            cases h6 : intField st "BusyWorkers" with
            | error e =>
              rw [update_metrics_err6 l reg h1 h2 h3 h4 h5 h6,
                update_metrics_err6 l reg' h1 h2 h3 h4 h5 h6]
            | ok b =>
              cases h7 : intField st "IdleWorkers" with
              | error e =>
                rw [update_metrics_err7 l reg h1 h2 h3 h4 h5 h6 h7,
                  update_metrics_err7 l reg' h1 h2 h3 h4 h5 h6 h7]
              | ok i =>
                rw [update_metrics_ok l reg h1 h2 h3 h4 h5 h6 h7,
                  update_metrics_ok l reg' h1 h2 h3 h4 h5 h6 h7]

theorem update_metrics_own_label_congr (l : String) (st : List (String × String))
    {reg reg' : Registry} (h : gaugesAt reg l = gaugesAt reg' l) :
    gaugesAt (update_metrics l st reg).1 l = gaugesAt (update_metrics l st reg').1 l := by
  simp only [gaugesAt, List.cons.injEq, and_true] at h
  obtain ⟨e1, e2, e3, e4, e5, e6, e7, e8⟩ := h
  cases h1 : floatField st "Total Accesses" with
  | error e =>
    rw [update_metrics_err1 l reg h1, update_metrics_err1 l reg' h1]
    simp [gaugesAt, gset, e1, e2, e3, e4, e5, e6, e7, e8]
  | ok v1 =>
    cases h2 : floatField st "CPULoad" with
    | error e =>
      rw [update_metrics_err2 l reg h1 h2, update_metrics_err2 l reg' h1 h2]
      simp [gaugesAt, gset, e1, e2, e3, e4, e5, e6, e7, e8]
    | ok v2 =>
      cases h3 : floatField st "Uptime" with
      | error e =>
        rw [update_metrics_err3 l reg h1 h2 h3, update_metrics_err3 l reg' h1 h2 h3]
        simp [gaugesAt, gset, e1, e2, e3, e4, e5, e6, e7, e8]
      | ok v3 =>
        cases h4 : floatField st "ReqPerSec" with
        | error e =>
          rw [update_metrics_err4 l reg h1 h2 h3 h4, update_metrics_err4 l reg' h1 h2 h3 h4]
          simp [gaugesAt, gset, e1, e2, e3, e4, e5, e6, e7, e8]
        | ok v4 =>
          cases h5 : floatField st "BytesPerSec" with
          | error e =>
            rw [update_metrics_err5 l reg h1 h2 h3 h4 h5,
              update_metrics_err5 l reg' h1 h2 h3 h4 h5]
            simp [gaugesAt, gset, e1, e2, e3, e4, e5, e6, e7, e8]
          | ok v5 =>
            cases h6 : intField st "BusyWorkers" with
            | error e =>
              rw [update_metrics_err6 l reg h1 h2 h3 h4 h5 h6,
                update_metrics_err6 l reg' h1 h2 h3 h4 h5 h6]
              simp [gaugesAt, gset, e1, e2, e3, e4, e5, e6, e7, e8]
            | ok b =>
              cases h7 : intField st "IdleWorkers" with
              | error e =>
                rw [update_metrics_err7 l reg h1 h2 h3 h4 h5 h6 h7,
                  update_metrics_err7 l reg' h1 h2 h3 h4 h5 h6 h7]
                simp [gaugesAt, gset, e1, e2, e3, e4, e5, e6, e7, e8]
              | ok i =>
                rw [update_metrics_ok l reg h1 h2 h3 h4 h5 h6 h7,
                  update_metrics_ok l reg' h1 h2 h3 h4 h5 h6 h7]
                simp [gaugesAt, gset]

theorem fetch_and_update_other_label (net : String → Option String → Except String String)
    (l u : String) (hp hps : Option String) (reg : Registry) {x : String} (hx : x ≠ l) :
    gaugesAt (fetch_and_update net l u hp hps reg).1 x = gaugesAt reg x := by
  cases hf : fetch_apache_status net u hp hps with
  | error e => rw [fetch_and_update_err net l u hp hps reg hf]
  | ok st =>
    rw [fetch_and_update_ok net l u hp hps reg hf]
    exact update_metrics_other_label l st reg hx

theorem fetch_and_update_snd_congr (net : String → Option String → Except String String)
    (l u : String) (hp hps : Option String) (reg reg' : Registry) :
    (fetch_and_update net l u hp hps reg).2 = (fetch_and_update net l u hp hps reg').2 := by
  cases hf : fetch_apache_status net u hp hps with
  | error e => rw [fetch_and_update_err net l u hp hps reg hf,
      fetch_and_update_err net l u hp hps reg' hf]
  | ok st =>
    rw [fetch_and_update_ok net l u hp hps reg hf,
      fetch_and_update_ok net l u hp hps reg' hf]
    simp [update_metrics_snd_congr l st reg reg']

theorem fetch_and_update_own_label_congr
    (net : String → Option String → Except String String)
    (l u : String) (hp hps : Option String) {reg reg' : Registry}
    (h : gaugesAt reg l = gaugesAt reg' l) :
    gaugesAt (fetch_and_update net l u hp hps reg).1 l
      = gaugesAt (fetch_and_update net l u hp hps reg').1 l := by
  cases hf : fetch_apache_status net u hp hps with
  | error e =>
    rw [fetch_and_update_err net l u hp hps reg hf,
      fetch_and_update_err net l u hp hps reg' hf]
    exact h
  | ok st =>
    rw [fetch_and_update_ok net l u hp hps reg hf,
      fetch_and_update_ok net l u hp hps reg' hf]
    exact update_metrics_own_label_congr l st h

theorem fetch_and_update_snd_label (net : String → Option String → Except String String)
    (l u : String) (hp hps : Option String) (reg : Registry) :
    (fetch_and_update net l u hp hps reg).2 = none
    ∨ ∃ e, (fetch_and_update net l u hp hps reg).2 = some (l, e) := by
  cases hf : fetch_apache_status net u hp hps with
  | error e =>
    right
    exact ⟨e, by rw [fetch_and_update_err net l u hp hps reg hf]⟩
  | ok st =>
    rw [fetch_and_update_ok net l u hp hps reg hf]
    cases (update_metrics l st reg).2 with
    | none => left; rfl
    | some e => right; exact ⟨e, rfl⟩

theorem unitOf_snd_congr (net : String → Option String → Except String String)
    (ghp ghps : Option String) (reg reg' : Registry)
    (p : String × List (String × String)) :
    (unitOf net ghp ghps reg p).2 = (unitOf net ghp ghps reg' p).2 :=
  fetch_and_update_snd_congr net p.1 _ _ _ reg reg'

theorem unitOf_own_label_congr (net : String → Option String → Except String String)
    (ghp ghps : Option String) {reg reg' : Registry}
    (p : String × List (String × String))
    (h : gaugesAt reg p.1 = gaugesAt reg' p.1) :
    gaugesAt (unitOf net ghp ghps reg p).1 p.1
      = gaugesAt (unitOf net ghp ghps reg' p).1 p.1 :=
  fetch_and_update_own_label_congr net p.1 _ _ _ h

/-- A collection cycle never touches the gauges of a label that none of
its (non-skipped) sections carries. -/
theorem collect_metrics_preserves_label (x : String) :
    ∀ (config : List (String × List (String × String)))
      (ghp ghps : Option String) (net : String → Option String → Except String String)
      (reg : Registry) (out : Registry × List (String × String)),
      (∀ p ∈ config, p.1 ≠ "config" → p.1 ≠ x) →
      collect_metrics config ghp ghps net reg = some out →
      gaugesAt out.1 x = gaugesAt reg x := by
  intro config
  induction config with
  | nil =>
    intro ghp ghps net reg out _ h
    simp only [collect_metrics] at h
    cases h
    rfl
  | cons p rest ih =>
    obtain ⟨label, sec⟩ := p
    intro ghp ghps net reg out hlab h
    by_cases hc : label = "config"
    · subst hc
      simp only [collect_metrics, if_pos rfl] at h
      exact ih ghp ghps net reg out
        (fun q hq => hlab q (List.mem_cons_of_mem _ hq)) h
    · simp only [collect_metrics, if_neg hc] at h
      cases hurl : dictGet sec "url" with
      | none =>
        simp only [hurl] at h
        exact Option.noConfusion h
      | some u =>
        simp only [hurl] at h
        have hxlab : x ≠ label :=
          fun hh => (hlab ⟨label, sec⟩ (List.mem_cons_self _ _) hc) hh.symm
        cases hrec : collect_metrics rest ghp ghps net
            (fetch_and_update net label (ensure_auto_parameter u)
              (sectionGet sec "http_proxy" ghp) (sectionGet sec "https_proxy" ghps) reg).1 with
        | none =>
          simp only [hrec] at h
          exact Option.noConfusion h
        | some q =>
          simp only [hrec] at h
          obtain ⟨rf, logs⟩ := q
          have hout : out.1 = rf := by cases h; rfl
          rw [hout]
          have h1 := ih ghp ghps net _ (rf, logs)
            (fun q hq => hlab q (List.mem_cons_of_mem _ hq)) hrec
          rw [h1]
          exact fetch_and_update_other_label net label _ _ _ reg hxlab

/-- The body of one collection cycle, fully characterised: under a
well-formed configuration (every non-`config` section has a `url`,
section names unique) the cycle completes, the diagnostics are exactly
the failing targets' in configuration order, and each target's final
gauges are those its own unit of work computes from the pre-cycle
registry. -/
theorem collect_metrics_run (config : List (String × List (String × String)))
    (ghp ghps : Option String) (net : String → Option String → Except String String)
    (reg0 : Registry)
    (hurl : ∀ p ∈ config, p.1 ≠ "config" → (dictGet p.2 "url").isSome)
    (hnodup : (config.map Prod.fst).Nodup) :
    ∃ final logs, collect_metrics config ghp ghps net reg0 = some (final, logs)
      ∧ logs = config.filterMap
          (fun p => if p.1 = "config" then none else (unitOf net ghp ghps reg0 p).2)
      ∧ ∀ p ∈ config, p.1 ≠ "config" →
          gaugesAt final p.1 = gaugesAt (unitOf net ghp ghps reg0 p).1 p.1 := by
  induction config generalizing reg0 with
  | nil => exact ⟨reg0, [], rfl, rfl, by simp⟩
  | cons p rest ih =>
    obtain ⟨label, sec⟩ := p
    simp only [List.map_cons, List.nodup_cons, List.mem_map] at hnodup
    by_cases hc : label = "config"
    · subst hc
      obtain ⟨final, logs, h1, h2, h3⟩ := ih reg0
        (fun q hq => hurl q (List.mem_cons_of_mem _ hq)) hnodup.2
      refine ⟨final, logs, ?_, ?_, ?_⟩
      · simp only [collect_metrics, if_pos rfl]
        exact h1
      · rw [List.filterMap_cons]
        simp only [if_pos rfl]
        exact h2
      · intro q hq hqc
        rcases List.mem_cons.mp hq with hq' | hq'
        · exact absurd (by rw [hq']) hqc
        · exact h3 q hq' hqc
    · have hu := hurl ⟨label, sec⟩ (List.mem_cons_self _ _) hc
      obtain ⟨u, hu'⟩ := Option.isSome_iff_exists.mp hu
      have hunit : unitOf net ghp ghps reg0 (label, sec)
          = fetch_and_update net label (ensure_auto_parameter u)
              (sectionGet sec "http_proxy" ghp) (sectionGet sec "https_proxy" ghps) reg0 := by
        unfold unitOf
        rw [hu']
        rfl
      obtain ⟨final, logs, h1, h2, h3⟩ := ih
        (fetch_and_update net label (ensure_auto_parameter u)
          (sectionGet sec "http_proxy" ghp) (sectionGet sec "https_proxy" ghps) reg0).1
        (fun q hq => hurl q (List.mem_cons_of_mem _ hq)) hnodup.2
      refine ⟨final,
        (match (unitOf net ghp ghps reg0 (label, sec)).2 with
          | some d => d :: logs | none => logs), ?_, ?_, ?_⟩
      · simp only [collect_metrics, if_neg hc, hu', h1, hunit]
      · rw [List.filterMap_cons]
        simp only [if_neg hc]
        have hlogs : logs = rest.filterMap
            (fun p => if p.1 = "config" then none else (unitOf net ghp ghps reg0 p).2) := by
          rw [h2]
          apply List.filterMap_congr
          intro q _
          by_cases hq : q.1 = "config"
          · simp [hq]
          · simp only [if_neg hq]
            rw [unitOf_snd_congr]
        rw [hlogs]
        cases (unitOf net ghp ghps reg0 (label, sec)).2 <;> simp
      · intro q hq hqc
        rcases List.mem_cons.mp hq with hq' | hq'
        · rw [hq']
          have hnot : ∀ r ∈ rest, r.1 ≠ "config" → r.1 ≠ label := by
            intro r hr _ hrl
            exact hnodup.1 ⟨r, hr, hrl⟩
          have hpres := collect_metrics_preserves_label label rest ghp ghps net _
            (final, logs) hnot h1
          simp only at hpres
          rw [hpres, hunit]
        · have hq1 : q.1 ≠ label := fun hh => hnodup.1 ⟨q, hq', hh⟩
          rw [h3 q hq' hqc]
          apply unitOf_own_label_congr
          exact fetch_and_update_other_label net label _ _ _ reg0 hq1

/-! ## Claims C3 and C10: the collection cycle -/

/-- **C3**: under a well-formed configuration (every non-`config` section
has a `url`; section names are unique, as the INI parser guarantees), one
collection cycle completes with every target's unit of work either done
or failed: the cycle returns normally; the diagnostics are exactly the
failing targets' ones, in configuration order, each carrying its own
target's label; and each target's final gauges are the ones its own unit
of work computes from the pre-cycle registry — one target's failure
neither prevents nor perturbs another target's work. -/
theorem C3_cycle_isolation (config : List (String × List (String × String)))
    (ghp ghps : Option String) (net : String → Option String → Except String String)
    (reg0 : Registry)
    (hurl : ∀ p ∈ config, p.1 ≠ "config" → (dictGet p.2 "url").isSome)
    (hnodup : (config.map Prod.fst).Nodup) :
    ∃ final logs, collect_metrics config ghp ghps net reg0 = some (final, logs)
      ∧ logs = config.filterMap
          (fun p => if p.1 = "config" then none else (unitOf net ghp ghps reg0 p).2)
      ∧ (∀ p ∈ config, p.1 ≠ "config" →
          gaugesAt final p.1 = gaugesAt (unitOf net ghp ghps reg0 p).1 p.1)
      ∧ (∀ p ∈ config, p.1 ≠ "config" →
          (unitOf net ghp ghps reg0 p).2 = none
          ∨ ∃ e, (unitOf net ghp ghps reg0 p).2 = some (p.1, e)) := by
  obtain ⟨final, logs, h1, h2, h3⟩ := collect_metrics_run config ghp ghps net reg0 hurl hnodup
  refine ⟨final, logs, h1, h2, h3, ?_⟩
  intro p _ _
  exact fetch_and_update_snd_label net p.1 _ _ _ reg0

/-- Witness for C3: two targets plus a `config` section; the first
target's page parses, the second times out. -/
theorem C3_witness :
    ∃ final logs,
      collect_metrics
        [("config", [("scrape_time_delay", "300")]),
         ("web1", [("url", "http://a/status")]),
         ("web2", [("url", "http://b/status")])]
        none none
        (fun u _ => if u = "http://a/status?auto"
          then Except.ok "BusyWorkers: 3\nIdleWorkers: 6" else Except.error "timeout")
        emptyRegistry = some (final, logs)
      ∧ logs = [("config", [("scrape_time_delay", "300")]),
         ("web1", [("url", "http://a/status")]),
         ("web2", [("url", "http://b/status")])].filterMap
          (fun p => if p.1 = "config" then none
            else (unitOf
              (fun u _ => if u = "http://a/status?auto"
                then Except.ok "BusyWorkers: 3\nIdleWorkers: 6" else Except.error "timeout")
              none none emptyRegistry p).2)
      ∧ (∀ p ∈ [("config", [("scrape_time_delay", "300")]),
           ("web1", [("url", "http://a/status")]),
           ("web2", [("url", "http://b/status")])], p.1 ≠ "config" →
          gaugesAt final p.1 = gaugesAt (unitOf
            (fun u _ => if u = "http://a/status?auto"
              then Except.ok "BusyWorkers: 3\nIdleWorkers: 6" else Except.error "timeout")
            none none emptyRegistry p).1 p.1)
      ∧ (∀ p ∈ [("config", [("scrape_time_delay", "300")]),
           ("web1", [("url", "http://a/status")]),
           ("web2", [("url", "http://b/status")])], p.1 ≠ "config" →
          (unitOf
            (fun u _ => if u = "http://a/status?auto"
              then Except.ok "BusyWorkers: 3\nIdleWorkers: 6" else Except.error "timeout")
            none none emptyRegistry p).2 = none
          ∨ ∃ e, (unitOf
              (fun u _ => if u = "http://a/status?auto"
                then Except.ok "BusyWorkers: 3\nIdleWorkers: 6" else Except.error "timeout")
              none none emptyRegistry p).2 = some (p.1, e)) :=
  C3_cycle_isolation _ none none _ emptyRegistry (by decide) (by decide)

/-- **C10**: a section named exactly `config` is never treated as a
target: the cycle's entire observable result — final registry and
diagnostics — equals that of the configuration with every `config`-named
section removed (no fetch is dispatched for it, whatever keys it holds),
and a completed cycle leaves every gauge with hostname label `config`
exactly as it was before the cycle. -/
theorem C10_config_section_skipped (config : List (String × List (String × String)))
    (ghp ghps : Option String) (net : String → Option String → Except String String)
    (reg0 : Registry) :
    collect_metrics config ghp ghps net reg0
      = collect_metrics (config.filter (fun p => p.1 ≠ "config")) ghp ghps net reg0
    ∧ ∀ out, collect_metrics config ghp ghps net reg0 = some out →
        gaugesAt out.1 "config" = gaugesAt reg0 "config" := by
  constructor
  · induction config generalizing reg0 with
    | nil => rfl
    | cons p rest ih =>
      obtain ⟨label, sec⟩ := p
      by_cases hc : label = "config"
      · subst hc
        rw [List.filter_cons_of_neg (by simp)]
        simp only [collect_metrics, if_pos rfl]
        exact ih reg0
      · rw [List.filter_cons_of_pos (by simpa using hc)]
        simp only [collect_metrics, if_neg hc]
        cases hurl : dictGet sec "url" with
        | none => simp only [hurl]
        | some u =>
          simp only [hurl]
          rw [ih]
  · intro out h
    exact collect_metrics_preserves_label "config" config ghp ghps net reg0 out
      (fun p _ hpc => hpc) h

/-- Witness for C10: a `config` section that even carries a `url` is
still skipped; every target fails, and the `config` label's gauges are
untouched. -/
theorem C10_witness :
    collect_metrics
        [("config", [("url", "http://evil/status")]), ("web1", [("url", "http://a/s")])]
        none none (fun _ _ => Except.error "down") emptyRegistry
      = collect_metrics
        ([("config", [("url", "http://evil/status")]),
          ("web1", [("url", "http://a/s")])].filter (fun p => p.1 ≠ "config"))
        none none (fun _ _ => Except.error "down") emptyRegistry
    ∧ gaugesAt ((collect_metrics
        [("config", [("url", "http://evil/status")]), ("web1", [("url", "http://a/s")])]
        none none (fun _ _ => Except.error "down") emptyRegistry).getD
          (emptyRegistry, [])).1 "config"
      = gaugesAt emptyRegistry "config" :=
  ⟨(C10_config_section_skipped
      [("config", [("url", "http://evil/status")]), ("web1", [("url", "http://a/s")])]
      none none (fun _ _ => Except.error "down") emptyRegistry).1,
   (C10_config_section_skipped
      [("config", [("url", "http://evil/status")]), ("web1", [("url", "http://a/s")])]
      none none (fun _ _ => Except.error "down") emptyRegistry).2 _ (by rfl)⟩

/-! ## Claim C6: `ensure_auto_parameter` -/

theorem splitFirstBy_not {p : Char → Bool} {l : List Char} (h : ∀ c ∈ l, p c = false) :
    splitFirstBy p l = none := by
  induction l with
  | nil => rfl
  | cons c rest ih =>
    have hc := h c (List.mem_cons_self _ _)
    simp [splitFirstBy, hc, ih (fun x hx => h x (List.mem_cons_of_mem _ hx))]

theorem splitFirstBy_first {p : Char → Bool} (l : List Char) (c0 : Char) (r : List Char)
    (h : ∀ c ∈ l, p c = false) (hc : p c0 = true) :
    splitFirstBy p (l ++ c0 :: r) = some (l, r) := by
  induction l with
  | nil => simp [splitFirstBy, hc]
  | cons c rest ih =>
    have hcc := h c (List.mem_cons_self _ _)
    simp [splitFirstBy, hcc, ih (fun x hx => h x (List.mem_cons_of_mem _ hx))]

theorem splitFirstBy_some {p : Char → Bool} :
    ∀ {l a b : List Char}, splitFirstBy p l = some (a, b) →
      (∀ c ∈ a, p c = false) ∧ ∃ c0, p c0 = true ∧ l = a ++ c0 :: b := by
  intro l
  induction l with
  | nil => intro a b h; simp [splitFirstBy] at h
  | cons c rest ih =>
    intro a b h
    by_cases hc : p c
    · simp [splitFirstBy, hc] at h
      obtain ⟨ha, hb⟩ := h
      subst ha; subst hb
      exact ⟨by simp, c, hc, rfl⟩
    · simp only [splitFirstBy, Bool.not_eq_true] at h
      rw [if_neg (by simp [hc])] at h
      cases hs : splitFirstBy p rest with
      | none => rw [hs] at h; simp at h
      | some q =>
        obtain ⟨a', b'⟩ := q
        rw [hs] at h
        simp at h
        obtain ⟨ha, hb⟩ := h
        obtain ⟨h1, c0, h2, h3⟩ := ih hs
        subst hb
        refine ⟨?_, c0, h2, ?_⟩
        · intro x hx
          rw [← ha] at hx
          rcases List.mem_cons.mp hx with rfl | hx'
          · simpa using hc
          · exact h1 x hx'
        · rw [← ha, h3]
          rfl

theorem takeWhile_append_all {p : Char → Bool} (l r : List Char)
    (hl : ∀ c ∈ l, p c = true)
    (hr : r = [] ∨ ∃ c t, r = c :: t ∧ p c = false) :
    (l ++ r).takeWhile p = l := by
  induction l with
  | nil =>
    rcases hr with rfl | ⟨c, t, rfl, hc⟩
    · rfl
    · simp [List.takeWhile_cons, hc]
  | cons c rest ih =>
    have hc := hl c (List.mem_cons_self _ _)
    simp [List.takeWhile_cons, hc, ih (fun x hx => hl x (List.mem_cons_of_mem _ hx))]

theorem dropWhile_append_all {p : Char → Bool} (l r : List Char)
    (hl : ∀ c ∈ l, p c = true)
    (hr : r = [] ∨ ∃ c t, r = c :: t ∧ p c = false) :
    (l ++ r).dropWhile p = r := by
  induction l with
  | nil =>
    rcases hr with rfl | ⟨c, t, rfl, hc⟩
    · rfl
    · simp [List.dropWhile_cons, hc]
  | cons c rest ih =>
    have hc := hl c (List.mem_cons_self _ _)
    simp [List.dropWhile_cons, hc, ih (fun x hx => hl x (List.mem_cons_of_mem _ hx))]

theorem isSchemeChar_safe {c : Char} (h : isSchemeChar c = true) :
    isUnsafeUrlChar c = false := by
  cases hcc : isUnsafeUrlChar c
  · rfl
  · exfalso
    have hor : c = '\t' ∨ c = '\r' ∨ c = '\n' := by simpa [isUnsafeUrlChar] using hcc
    rcases hor with rfl | rfl | rfl <;> exact absurd h (by decide)

theorem schemeChar_ne_colon {c : Char} (h : isSchemeChar c = true) :
    decide (c = ':') = false := by
  by_cases hc : c = ':'
  · subst hc; exact absurd h (by decide)
  · simp [hc]

theorem okNetlocChar_delim {c : Char} (h : okNetlocChar c = true) : isNetlocDelim c = false := by
  simp [okNetlocChar] at h
  exact h.1

theorem okNetlocChar_safe {c : Char} (h : okNetlocChar c = true) : isUnsafeUrlChar c = false := by
  simp [okNetlocChar] at h
  exact h.2

theorem okPathChar_spec {c : Char} (h : okPathChar c = true) :
    c ≠ '?' ∧ c ≠ '#' ∧ c ≠ ';' ∧ isUnsafeUrlChar c = false := by
  simp [okPathChar] at h
  exact ⟨h.1.1.1, h.1.1.2, h.1.2, h.2⟩

theorem okQueryChar_spec {c : Char} (h : okQueryChar c = true) :
    c ≠ '#' ∧ isUnsafeUrlChar c = false := by
  simp [okQueryChar] at h
  exact h

theorem urlSchemeSplit_mk (scheme rest : List Char) (hs1 : scheme ≠ [])
    (hs2 : scheme.all isSchemeChar = true) :
    urlSchemeSplit (scheme ++ ':' :: rest) = (lowerChars scheme, rest) := by
  unfold urlSchemeSplit
  rw [splitFirstBy_first _ _ _
    (fun c hc => schemeChar_ne_colon (List.all_eq_true.mp hs2 c hc)) (by decide)]
  simp [hs1, hs2]

theorem urlNetlocSplit_mk (netloc rest : List Char)
    (hn : ∀ c ∈ netloc, isNetlocDelim c = false)
    (hr : rest = [] ∨ ∃ c t, rest = c :: t ∧ isNetlocDelim c = true) :
    urlNetlocSplit ('/' :: '/' :: (netloc ++ rest)) = (netloc, rest) := by
  show List.span (fun c => ! isNetlocDelim c) (netloc ++ rest) = (netloc, rest)
  rw [List.span_eq_take_drop,
    takeWhile_append_all _ _ (fun c hc => by simp [hn c hc])
      (by rcases hr with rfl | ⟨c, t, rfl, hc⟩
          · exact Or.inl rfl
          · exact Or.inr ⟨c, t, rfl, by simp [hc]⟩),
    dropWhile_append_all _ _ (fun c hc => by simp [hn c hc])
      (by rcases hr with rfl | ⟨c, t, rfl, hc⟩
          · exact Or.inl rfl
          · exact Or.inr ⟨c, t, rfl, by simp [hc]⟩)]

theorem urlFragSplit_none (u : List Char) (h : ∀ c ∈ u, decide (c = '#') = false) :
    urlFragSplit u = (u, []) := by
  unfold urlFragSplit
  rw [splitFirstBy_not h]

theorem urlQuerySplit_none (u : List Char) (h : ∀ c ∈ u, decide (c = '?') = false) :
    urlQuerySplit u = (u, []) := by
  unfold urlQuerySplit
  rw [splitFirstBy_not h]

theorem urlQuerySplit_mk (path q : List Char) (h : ∀ c ∈ path, decide (c = '?') = false) :
    urlQuerySplit (path ++ '?' :: q) = (path, q) := by
  unfold urlQuerySplit
  rw [splitFirstBy_first _ _ _ h (by decide)]

theorem urlParamsSplit_none (u : List Char) (h : u.contains ';' = false) :
    urlParamsSplit u = (u, []) := by
  unfold urlParamsSplit
  rw [if_neg (by rw [h]; simp)]

set_option maxHeartbeats 1000000 in
theorem urlparse_mkHttpUrl (scheme netloc path query : String)
    (hs1 : scheme.data ≠ []) (hs2 : scheme.data.all isSchemeChar = true)
    (hs3 : lowerChars scheme.data = scheme.data)
    (hn : netloc.data.all okNetlocChar = true)
    (hp : path.data.all okPathChar = true)
    (hpath : path.data = [] ∨ ∃ t, path.data = '/' :: t)
    (hq : query.data.all okQueryChar = true) :
    urlparse (mkHttpUrl scheme netloc path query)
      = ⟨scheme, netloc, path, "", query, ""⟩ := by
  have hsAll : ∀ c ∈ scheme.data, isSchemeChar c = true := by simpa using hs2
  have hnAll : ∀ c ∈ netloc.data, okNetlocChar c = true := by simpa using hn
  have hpAll : ∀ c ∈ path.data, okPathChar c = true := by simpa using hp
  have hqAll : ∀ c ∈ query.data, okQueryChar c = true := by simpa using hq
  have hsemi : path.data.contains ';' = false := by
    by_cases hcc : path.data.contains ';' = true
    · exfalso
      have hm : ';' ∈ path.data := by simpa using hcc
      exact (okPathChar_spec (hpAll _ hm)).2.2.1 rfl
    · simpa using hcc
  by_cases hqe : query.data = []
  · -- no query: the URL is scheme://netloc ++ path
    have hdata : (mkHttpUrl scheme netloc path query).data
        = scheme.data ++ ':' :: '/' :: '/' :: (netloc.data ++ path.data) := by
      simp [mkHttpUrl, hqe]
    have hfilter : (scheme.data ++ ':' :: '/' :: '/' :: (netloc.data ++ path.data)).filter
        (fun c => ! isUnsafeUrlChar c)
        = scheme.data ++ ':' :: '/' :: '/' :: (netloc.data ++ path.data) := by
      apply List.filter_eq_self.mpr
      intro c hc
      simp only [List.mem_append, List.mem_cons] at hc
      rcases hc with hc | rfl | rfl | rfl | hc | hc
      · simp [isSchemeChar_safe (hsAll c hc)]
      · decide
      · decide
      · decide
      · simp [okNetlocChar_safe (hnAll c hc)]
      · simp [(okPathChar_spec (hpAll c hc)).2.2.2]
    have e2 : urlSchemeSplit (scheme.data ++ ':' :: '/' :: '/' :: (netloc.data ++ path.data))
        = (scheme.data, '/' :: '/' :: (netloc.data ++ path.data)) := by
      rw [urlSchemeSplit_mk _ _ hs1 hs2, hs3]
    have e3 : urlNetlocSplit ('/' :: '/' :: (netloc.data ++ path.data))
        = (netloc.data, path.data) :=
      urlNetlocSplit_mk _ _ (fun c hc => okNetlocChar_delim (hnAll c hc))
        (by rcases hpath with hpe | ⟨t, hpt⟩
            · exact Or.inl hpe
            · exact Or.inr ⟨'/', t, hpt, by decide⟩)
    have e4 : urlFragSplit path.data = (path.data, []) :=
      urlFragSplit_none _ (fun c hc => decide_eq_false (okPathChar_spec (hpAll c hc)).2.1)
    have e5 : urlQuerySplit path.data = (path.data, []) :=
      urlQuerySplit_none _ (fun c hc => decide_eq_false (okPathChar_spec (hpAll c hc)).1)
    have e6 : urlParamsSplit path.data = (path.data, []) := urlParamsSplit_none _ hsemi
    have hq0 : query = "" := by
      cases query with
      | mk d =>
        simp only at hqe
        rw [hqe]
    unfold urlparse
    simp only [hdata, hfilter, e2, e3, e4, e5, e6]
    rw [hq0]
  · -- with query: the URL is scheme://netloc ++ path ++ '?' ++ query
    have hdata : (mkHttpUrl scheme netloc path query).data
        = scheme.data ++ ':' :: '/' :: '/' ::
            (netloc.data ++ (path.data ++ '?' :: query.data)) := by
      simp [mkHttpUrl, hqe]
    have hfilter : (scheme.data ++ ':' :: '/' :: '/' ::
          (netloc.data ++ (path.data ++ '?' :: query.data))).filter
        (fun c => ! isUnsafeUrlChar c)
        = scheme.data ++ ':' :: '/' :: '/' ::
            (netloc.data ++ (path.data ++ '?' :: query.data)) := by
      apply List.filter_eq_self.mpr
      intro c hc
      simp only [List.mem_append, List.mem_cons] at hc
      rcases hc with hc | rfl | rfl | rfl | hc | hc | rfl | hc
      · simp [isSchemeChar_safe (hsAll c hc)]
      · decide
      · decide
      · decide
      · simp [okNetlocChar_safe (hnAll c hc)]
      · simp [(okPathChar_spec (hpAll c hc)).2.2.2]
      · decide
      · simp [(okQueryChar_spec (hqAll c hc)).2]
    have e2 : urlSchemeSplit (scheme.data ++ ':' :: '/' :: '/' ::
          (netloc.data ++ (path.data ++ '?' :: query.data)))
        = (scheme.data, '/' :: '/' :: (netloc.data ++ (path.data ++ '?' :: query.data))) := by
      rw [urlSchemeSplit_mk _ _ hs1 hs2, hs3]
    have e3 : urlNetlocSplit ('/' :: '/' :: (netloc.data ++ (path.data ++ '?' :: query.data)))
        = (netloc.data, path.data ++ '?' :: query.data) :=
      urlNetlocSplit_mk _ _ (fun c hc => okNetlocChar_delim (hnAll c hc))
        (by rcases hpath with hpe | ⟨t, hpt⟩
            · rw [hpe, List.nil_append]
              exact Or.inr ⟨'?', query.data, rfl, by decide⟩
            · rw [hpt, List.cons_append]
              exact Or.inr ⟨'/', t ++ '?' :: query.data, rfl, by decide⟩)
    have e4 : urlFragSplit (path.data ++ '?' :: query.data)
        = (path.data ++ '?' :: query.data, []) := by
      apply urlFragSplit_none
      intro c hc
      rcases List.mem_append.mp hc with hc' | hc'
      · exact decide_eq_false (okPathChar_spec (hpAll c hc')).2.1
      · rcases List.mem_cons.mp hc' with rfl | hc''
        · decide
        · exact decide_eq_false (okQueryChar_spec (hqAll c hc'')).1
    have e5 : urlQuerySplit (path.data ++ '?' :: query.data) = (path.data, query.data) :=
      urlQuerySplit_mk _ _ (fun c hc => decide_eq_false (okPathChar_spec (hpAll c hc)).1)
    have e6 : urlParamsSplit path.data = (path.data, []) := urlParamsSplit_none _ hsemi
    unfold urlparse
    simp only [hdata, hfilter, e2, e3, e4, e5, e6]

theorem urlunparse_components (scheme netloc path query : String)
    (hs1 : scheme.data ≠ []) (hn1 : netloc.data ≠ [])
    (hpath : path.data = [] ∨ ∃ t, path.data = '/' :: t)
    (hq1 : query.data ≠ []) :
    urlunparse ⟨scheme, netloc, path, "", query, ""⟩
      = mkHttpUrl scheme netloc path query := by
  rcases hpath with hpe | ⟨t, hpt⟩
  · simp [urlunparse, urlunsplit, mkHttpUrl, hn1, hs1, hq1, hpe]
  · simp [urlunparse, urlunsplit, mkHttpUrl, hn1, hs1, hq1, hpt]

theorem plusToSpace_eq_target {n t : List Char} (ht : ∀ c ∈ t, c ≠ ' ')
    (h : plusToSpace n = t) : n = t := by
  induction n generalizing t with
  | nil => simpa [plusToSpace] using h
  | cons c rest ih =>
    cases t with
    | nil => simp [plusToSpace] at h
    | cons d ts =>
      simp only [plusToSpace, List.map_cons, List.cons.injEq] at h
      obtain ⟨h1, h2⟩ := h
      have hcd : c = d := by
        by_cases hc : c = '+'
        · exfalso
          rw [if_pos hc] at h1
          exact ht d (List.mem_cons_self _ _) h1.symm
        · rw [if_neg hc] at h1
          exact h1
      subst hcd
      rw [ih (fun x hx => ht x (List.mem_cons_of_mem _ hx))
        (by simpa [plusToSpace] using h2)]

theorem qslEntry_auto_iff (piece : List Char) :
    (∃ v', qslEntry piece = some ("auto", v'))
      ↔ ∃ v, piece = "auto=".data ++ v ∧ v ≠ [] := by
  constructor
  · rintro ⟨v', h⟩
    unfold qslEntry at h
    by_cases hpe : piece = []
    · rw [if_pos hpe] at h
      exact absurd h (by simp)
    · rw [if_neg hpe] at h
      cases hs : splitFirstBy (fun c => decide (c = '=')) piece with
      | none => rw [hs] at h; exact absurd h (by simp)
      | some nv =>
        obtain ⟨name, value⟩ := nv
        simp only [hs] at h
        by_cases hve : value = []
        · rw [if_pos hve] at h
          exact absurd h (by simp)
        · rw [if_neg hve] at h
          simp only [Option.some.injEq, Prod.mk.injEq] at h
          obtain ⟨hn, hv⟩ := h
          have hname : name = "auto".data :=
            plusToSpace_eq_target (by decide) (congrArg String.data hn)
          obtain ⟨h1, c0, h2, h3⟩ := splitFirstBy_some hs
          have hc0 : c0 = '=' := by simpa using h2
          subst hc0
          refine ⟨value, ?_, hve⟩
          rw [h3, hname]
          rfl
  · rintro ⟨v, rfl, hv⟩
    refine ⟨String.mk (plusToSpace v), ?_⟩
    unfold qslEntry
    rw [if_neg (by simp)]
    have hshape : ("auto=".data ++ v : List Char) = "auto".data ++ '=' :: v := rfl
    rw [hshape, splitFirstBy_first "auto".data '=' v (by decide) (by decide)]
    simp [hv]
    rfl

theorem hasAutoParam_iff (q : String) :
    hasAutoParam q = true ↔
      ∃ piece ∈ splitSep1 '&' q.data [], ∃ v, piece = "auto=".data ++ v ∧ v ≠ [] := by
  unfold hasAutoParam parse_qsl
  rw [List.any_eq_true]
  constructor
  · rintro ⟨e, he, hpred⟩
    obtain ⟨piece, hpm, hpe⟩ := List.mem_filterMap.mp he
    have he1 : e.1 = "auto" := by simpa using hpred
    refine ⟨piece, hpm, ?_⟩
    apply (qslEntry_auto_iff piece).mp
    refine ⟨e.2, ?_⟩
    rw [hpe, ← he1]
  · rintro ⟨piece, hpm, hv⟩
    obtain ⟨v', hv'⟩ := (qslEntry_auto_iff piece).mpr hv
    exact ⟨("auto", v'), List.mem_filterMap.mpr ⟨piece, hpm, hv'⟩, by simp⟩

/-- **C6** (counterexample): a URL whose query is the bare valueless
`auto` — exactly the machine-readable form the endpoint needs — is *not*
recognised (`parse_qs` drops blank values), so `&auto` is appended again;
and recognition is case-sensitive, so `AUTO=1` is not recognised either.
This refutes "returns the URL unchanged when an auto query parameter is
already present in any form (including a bare valueless auto, any
casing)". -/
theorem C6_counterexample :
    ensure_auto_parameter "http://h/status?auto" = "http://h/status?auto&auto"
    ∧ ensure_auto_parameter "http://h/status?AUTO=1" = "http://h/status?AUTO=1&auto"
    ∧ "http://h/status?auto&auto" ≠ "http://h/status?auto" := by
  refine ⟨rfl, rfl, by decide⟩

/-- **C6** (amended): over well-formed http(s) URLs
`scheme://netloc path [? query]`, `ensure_auto_parameter` returns the URL
unchanged iff the query contains an `&`-separated piece of the form
`auto=v` with non-empty `v` (name matched case-sensitively; a bare or
valueless `auto` is not recognised); otherwise it appends `auto` to the
existing query (or makes `auto` the whole query), preserving scheme,
netloc and path. -/
theorem C6_auto_parameter (scheme netloc path query : String)
    (hs1 : scheme.data ≠ []) (hs2 : scheme.data.all isSchemeChar = true)
    (hs3 : lowerChars scheme.data = scheme.data)
    (hn1 : netloc.data ≠ []) (hn : netloc.data.all okNetlocChar = true)
    (hp : path.data.all okPathChar = true)
    (hpath : path.data = [] ∨ ∃ t, path.data = '/' :: t)
    (hq : query.data.all okQueryChar = true) :
    (hasAutoParam query = true →
      ensure_auto_parameter (mkHttpUrl scheme netloc path query)
        = mkHttpUrl scheme netloc path query)
    ∧ (hasAutoParam query = false →
      ensure_auto_parameter (mkHttpUrl scheme netloc path query)
        = mkHttpUrl scheme netloc path
            (if query.data = [] then "auto" else String.mk (query.data ++ "&auto".data)))
    ∧ (hasAutoParam query = true ↔
        ∃ piece ∈ splitSep1 '&' query.data [], ∃ v, piece = "auto=".data ++ v ∧ v ≠ []) := by
  have hparse := urlparse_mkHttpUrl scheme netloc path query hs1 hs2 hs3 hn hp hpath hq
  refine ⟨?_, ?_, hasAutoParam_iff query⟩
  · intro hauto
    unfold ensure_auto_parameter
    rw [hparse]
    simp [hauto]
  · intro hauto
    unfold ensure_auto_parameter
    rw [hparse]
    simp only [hauto, Bool.false_eq_true, not_false_eq_true, if_true]
    by_cases hqe : query.data = []
    · rw [if_pos hqe]
      have hnew : (if query.data ≠ [] then String.mk (query.data ++ "&auto".data) else "auto")
          = "auto" := by rw [if_neg (by simpa using hqe)]
      rw [hnew]
      exact urlunparse_components scheme netloc path "auto" hs1 hn1 hpath (by decide)
    · rw [if_neg hqe]
      have hnew : (if query.data ≠ [] then String.mk (query.data ++ "&auto".data) else "auto")
          = String.mk (query.data ++ "&auto".data) := by rw [if_pos hqe]
      rw [hnew]
      exact urlunparse_components scheme netloc path (String.mk (query.data ++ "&auto".data))
        hs1 hn1 hpath (by simp [hqe])

/-- Witness for C6: `http://h/status?a=1` gets `auto` appended preserving
everything else; `http://h/status?auto=1` is returned unchanged. -/
theorem C6_witness :
    (ensure_auto_parameter (mkHttpUrl "http" "h" "/status" "a=1")
        = mkHttpUrl "http" "h" "/status" (String.mk ("a=1".data ++ "&auto".data)))
    ∧ (ensure_auto_parameter (mkHttpUrl "http" "h" "/status" "auto=1")
        = mkHttpUrl "http" "h" "/status" "auto=1") := by
  constructor
  · have h := (C6_auto_parameter "http" "h" "/status" "a=1" (by decide) (by decide)
      (by decide) (by decide) (by decide) (by decide)
      (Or.inr ⟨"status".data, rfl⟩) (by decide)).2.1 (by decide)
    simpa using h
  · exact (C6_auto_parameter "http" "h" "/status" "auto=1" (by decide) (by decide)
      (by decide) (by decide) (by decide) (by decide)
      (Or.inr ⟨"status".data, rfl⟩) (by decide)).1 (by decide)

end ApacheExporter
